import Mathlib

/-! Zynq XADC / DMA / lwIP tutorial application: verification of `main.cpp`.

Shallow embedding of `sources/XADC_tutorial_app/main.cpp`.

Conventions of the embedding:

* `u16` values are natural numbers below `65536`; every operation that can
  leave that range is reduced `% 65536` explicitly.
* `float` and `double` values are rationals (`ℚ`). `roundBinary32` and
  `roundBinary64` round a rational to the nearest binary32 or binary64 number,
  ties to even. `Xadc_RawToVoltageAUX1_binary32`,
  `Xadc_RawToVoltageVPVN_binary32` and `ConvertRawGainCoefToPercents` apply the
  rounding of every floating-point operation of the source;
  `Xadc_RawToVoltageAUX1` and `Xadc_RawToVoltageVPVN` carry out the same
  operations in exact arithmetic.
* The preprocessor symbol `AVERAGING_MODE`, fixed at build time in the source,
  is a parameter of the decoders.
* Hardware and library calls (Xilinx drivers, FreeRTOS, the debouncer, the
  socket stream) are not part of the sources; what they answer in one pass of
  the main loop is collected in `TickEnv`, and what is asked of them is
  recorded in an explicit trace of `Effect`s.
-/

namespace XADC

/-! ## Build-time configuration -/

/-- Values of `AVERAGING_MODE` (constants `XSM_AVG_*` of `xsysmon.h`). -/
inductive AveragingMode
  | XSM_AVG_0_SAMPLES
  | XSM_AVG_16_SAMPLES
  | XSM_AVG_64_SAMPLES
  | XSM_AVG_256_SAMPLES
  deriving DecidableEq, Repr

/-- `#define SAMPLE_COUNT 100` -/
def SAMPLE_COUNT : Nat := 100

/-- Number of elements of `DataBuffer`, declared `u16 DataBuffer[ SAMPLE_COUNT + 8 ]`. -/
def DataBufferLen : Nat := SAMPLE_COUNT + 8

/-- Driver status `XST_SUCCESS` (`xstatus.h`). -/
def XST_SUCCESS : Nat := 0

/-- Driver status `XST_FAILURE` (`xstatus.h`). -/
def XST_FAILURE : Nat := 1

/-! ## Binary floating-point rounding -/

/-- Number of binary digits of `n`; the first argument bounds the recursion. -/
def bitLength : Nat → Nat → Nat
  | 0, _ => 0
  | fuel + 1, n => if n = 0 then 0 else bitLength fuel (n / 2) + 1

/-- Binary exponent of a positive rational `a`: the `e` with `2^e ≤ a < 2^(e+1)`. -/
def binaryExponent (a : ℚ) : Int :=
  let e0 : Int := (bitLength a.num.natAbs a.num.natAbs : Int) - (bitLength a.den a.den : Int)
  if (2 : ℚ) ^ e0 ≤ a then e0 else e0 - 1

/-- Rounding to the nearest binary floating-point number with `p` significant
bits, ties to even, with `2^kmin` the smallest positive (subnormal) number. -/
def roundNearestEven (p : Nat) (kmin : Int) (q : ℚ) : ℚ :=
  if q = 0 then 0
  else
    let a : ℚ := |q|
    let k : Int := max (binaryExponent a - ((p : Int) - 1)) kmin
    let x : ℚ := a / 2 ^ k
    let fl : Int := ⌊x⌋
    let m : Int :=
      if x - fl < 1 / 2 then fl
      else if 1 / 2 < x - fl then fl + 1
      else if fl % 2 = 0 then fl else fl + 1
    let r : ℚ := (m : ℚ) * 2 ^ k
    if q < 0 then -r else r

/-- Rounding to IEEE 754 binary32 (`float`). -/
def roundBinary32 (q : ℚ) : ℚ := roundNearestEven 24 (-149) q

/-- Rounding to IEEE 754 binary64 (`double`). -/
def roundBinary64 (q : ℚ) : ℚ := roundNearestEven 53 (-1074) q

/-! ## Raw-to-voltage decoders -/

/-- The statement `RawData = ~RawData + 1;` on a `u16`: the sum is computed in
`int` and stored back truncated to 16 bits. The low 16 bits of `~RawData` are
`65535 - RawData`. -/
def u16Negate (RawData : Nat) : Nat :=
  ((65535 - RawData) + 1) % 65536

/-- `static float Xadc_RawToVoltageAUX1(u16 RawData)`, the operations carried out
in exact arithmetic. -/
def Xadc_RawToVoltageAUX1 (AVERAGING_MODE : AveragingMode) (RawData : Nat) : ℚ :=
  let Scale : ℚ := 3.32
  if AVERAGING_MODE = .XSM_AVG_0_SAMPLES then
    Scale * (((RawData >>> 4 : Nat) : ℚ) / ((0xFFF : Nat) : ℚ))
  else
    Scale * ((RawData : ℚ) / ((0xFFFF : Nat) : ℚ))

/-- `static float Xadc_RawToVoltageVPVN(u16 RawData)`, the operations carried out
in exact arithmetic. -/
def Xadc_RawToVoltageVPVN (AVERAGING_MODE : AveragingMode) (RawData : Nat) : ℚ :=
  if AVERAGING_MODE = .XSM_AVG_0_SAMPLES then
    if RawData >>> 4 = 0x800 then
      -0.5
    else
      let sign : ℚ := if RawData &&& 0x8000 ≠ 0 then -1.0 else 1.0
      let RawData1 : Nat := if RawData &&& 0x8000 ≠ 0 then u16Negate RawData else RawData
      let RawData2 : Nat := RawData1 >>> 4
      sign * (RawData2 : ℚ) * (1.0 / 4096.0)
  else
    if RawData = 0x8000 then
      -0.5
    else
      let sign : ℚ := if RawData &&& 0x8000 ≠ 0 then -1.0 else 1.0
      let RawData1 : Nat := if RawData &&& 0x8000 ≠ 0 then u16Negate RawData else RawData
      sign * (RawData1 : ℚ) * (1.0 / 65535.0)

/-- `static float Xadc_RawToVoltageAUX1(u16 RawData)` with the rounding of
every operation: `const float Scale = 3.32;` converts the binary64 literal to
binary32; the quotient of the two `float` operands and the product with
`Scale` are binary32 operations. The conversions `float(RawData >> 4)`,
`float(RawData)`, `float(0xFFF)` and `float(0xFFFF)` are exact. -/
def Xadc_RawToVoltageAUX1_binary32 (AVERAGING_MODE : AveragingMode) (RawData : Nat) : ℚ :=
  let Scale : ℚ := roundBinary32 (roundBinary64 3.32)
  if AVERAGING_MODE = .XSM_AVG_0_SAMPLES then
    roundBinary32 (Scale * roundBinary32 (((RawData >>> 4 : Nat) : ℚ) / ((0xFFF : Nat) : ℚ)))
  else
    roundBinary32 (Scale * roundBinary32 ((RawData : ℚ) / ((0xFFFF : Nat) : ℚ)))

/-- `static float Xadc_RawToVoltageVPVN(u16 RawData)` with the rounding of
every operation: `sign * float(RawData)` is a binary32 product, the quotient
`1.0/4096.0` or `1.0/65535.0` is a binary64 constant, the product of the two
is a binary64 operation, and the `return` converts it to binary32. -/
def Xadc_RawToVoltageVPVN_binary32 (AVERAGING_MODE : AveragingMode) (RawData : Nat) : ℚ :=
  if AVERAGING_MODE = .XSM_AVG_0_SAMPLES then
    if RawData >>> 4 = 0x800 then
      -0.5
    else
      let sign : ℚ := if RawData &&& 0x8000 ≠ 0 then -1.0 else 1.0
      let RawData1 : Nat := if RawData &&& 0x8000 ≠ 0 then u16Negate RawData else RawData
      let RawData2 : Nat := RawData1 >>> 4
      roundBinary32 (roundBinary64
        (roundBinary32 (sign * (RawData2 : ℚ)) * roundBinary64 (1.0 / 4096.0)))
  else
    if RawData = 0x8000 then
      -0.5
    else
      let sign : ℚ := if RawData &&& 0x8000 ≠ 0 then -1.0 else 1.0
      let RawData1 : Nat := if RawData &&& 0x8000 ≠ 0 then u16Negate RawData else RawData
      roundBinary32 (roundBinary64
        (roundBinary32 (sign * (RawData1 : ℚ)) * roundBinary64 (1.0 / 65535.0)))

/-- The cast `(int16_t)num` of a `u16`. -/
def toInt16 (num : Nat) : Int :=
  if num % 65536 < 32768 then ((num % 65536 : Nat) : Int) else ((num % 65536 : Nat) : Int) - 65536

/-- `static int16_t Convert12BitToSigned16Bit(u16 num)` -/
def Convert12BitToSigned16Bit (num : Nat) : Int :=
  let num1 : Nat := if num &&& 0x800 ≠ 0 then num ||| 0xF000 else num
  toInt16 num1

/-- `static float ConvertRawGainCoefToPercents(u16 num)` with the rounding of
every operation: `(num & 0x3F) * 0.1` is a binary64 product with the binary64
literal `0.1`, the initialisation of `float res` converts it to binary32, and
`res *= -1` is a binary32 product. -/
def ConvertRawGainCoefToPercents (num : Nat) : ℚ :=
  let res : ℚ := roundBinary32 (roundBinary64 (((num &&& 0x3F : Nat) : ℚ) * roundBinary64 0.1))
  if num &&& 0x40 = 0 then roundBinary32 (res * (-1)) else res

/-! ## The decoding rule for the bipolar input in the words of the specification -/

/-- Sign of an `N`-bit two's-complement field: `-1` when the sign bit is set,
`+1` otherwise. -/
def twosSign (N field : Nat) : ℚ :=
  if 2 ^ (N - 1) ≤ field then -1 else 1

/-- Absolute value of an `N`-bit two's-complement field. -/
def twosMagnitude (N field : Nat) : Nat :=
  if 2 ^ (N - 1) ≤ field then 2 ^ N - field else field

/-- Width `N` of the valid field: 12 bits with no averaging, 16 bits otherwise. -/
def fieldWidth (AVERAGING_MODE : AveragingMode) : Nat :=
  if AVERAGING_MODE = .XSM_AVG_0_SAMPLES then 12 else 16

/-- The valid field of a raw sample: `raw >> 4` with no averaging, the whole
sample otherwise. -/
def validField (AVERAGING_MODE : AveragingMode) (raw : Nat) : Nat :=
  if AVERAGING_MODE = .XSM_AVG_0_SAMPLES then raw >>> 4 else raw

/-- The rule as the specification words it: scale the magnitude by
`1/(2^(N-1))`, then multiply by the sign. -/
def spec_RawToVoltageVPVN (AVERAGING_MODE : AveragingMode) (raw : Nat) : ℚ :=
  twosSign (fieldWidth AVERAGING_MODE) (validField AVERAGING_MODE raw) *
    (twosMagnitude (fieldWidth AVERAGING_MODE) (validField AVERAGING_MODE raw) : ℚ) /
    2 ^ (fieldWidth AVERAGING_MODE - 1)

/-! ## File-scope state -/

/-- `enum class eXADCInput { VAUX1, VPVN };` -/
inductive eXADCInput
  | VAUX1
  | VPVN
  deriving DecidableEq, Repr

/-- Values held by the pointer `static float (*Xadc_RawToVoltageFunc)(u16 RawData)`:
the null pointer of static initialisation, or one of the two decoders assigned
to it in `ActivateXADCInput`. -/
inductive FuncPtr
  | null
  | AUX1
  | VPVN
  deriving DecidableEq, Repr

/-- The function a pointer value designates; a null pointer designates none. -/
def FuncPtr.target (AVERAGING_MODE : AveragingMode) : FuncPtr → Option (Nat → ℚ)
  | .null => none
  | .AUX1 => some (Xadc_RawToVoltageAUX1 AVERAGING_MODE)
  | .VPVN => some (Xadc_RawToVoltageVPVN AVERAGING_MODE)

/-- The mutable file-scope variables read or written by the main loop. -/
structure Globals where
  DataBuffer : List Nat
  ActiveXADCInput : eXADCInput
  Xadc_RawToVoltageFunc : FuncPtr
  deriving DecidableEq, Repr

/-! ## Effects and the answers of the collaborators -/

/-- Texts written to `cout` and `cerr` by the code embedded here. -/
inductive ConsoleMsg
  | simpleTransferFailed
  | setSingleChParamsVAUX1Failed
  | setSingleChParamsVPVNFailed
  | VAUX1Activated
  | VPVNActivated
  | dataHeader
  | sendingData
  | sent
  | socketError
  deriving DecidableEq, Repr

/-- Observable actions, in program order. -/
inductive Effect
  | XGpioPs_Read
  | Xil_DCacheFlushRange
  | XAxiDma_SimpleTransfer (length : Nat)
  | XGpioPs_WritePin (pin : Nat) (data : Nat)
  | XAxiDma_Busy (busy : Bool)
  | vTaskDelay
  | Xil_DCacheInvalidateRange
  | XSysMon_SetSingleChParams (input : eXADCInput) (IsDifferentialMode : Bool)
  | readDataBuffer (i : Nat)
  | cout (m : ConsoleMsg)
  | coutVoltage (v : ℚ)
  | cerr (m : ConsoleMsg)
  | socketOpen (opened : Bool)
  | socketWrite (v : ℚ)
  | socketClose
  | vTaskDelete
  deriving DecidableEq, Repr

/-- What the collaborators answer during one pass of the `while(1)` body. -/
structure TickEnv where
  /-- Answer of `btns.ButtonPressed(BUTTON_PIN_0)`. -/
  BTN0 : Bool
  /-- Answer of `btns.ButtonPressed(BUTTON_PIN_1)`. -/
  BTN1 : Bool
  /-- Status returned by `XAxiDma_SimpleTransfer`. -/
  simpleTransferStatus : Nat
  /-- How many times `XAxiDma_Busy` answers busy before it answers done;
  `none` when the engine never reports done. -/
  busyPolls : Option Nat
  /-- The samples the DMA engine stores, by position. -/
  dmaSample : Nat → Nat
  /-- Whether the constructor of `FileViaSocket` throws. -/
  socketOpenThrows : Bool
  /-- Position of the write on the stream that throws, if one does. -/
  socketWriteThrowsAt : Option Nat
  /-- Status returned by `XSysMon_SetSingleChParams`. -/
  setSingleChStatus : Nat

/-- How one pass of the loop body ends. -/
inductive Outcome
  /-- The end of the body is reached; the loop polls again. -/
  | next (g : Globals)
  /-- The task ended itself with `vTaskDelete(NULL)`. -/
  | deleted (g : Globals)
  /-- The wait on `XAxiDma_Busy` never ends. -/
  | blocked
  /-- A call through a null `Xadc_RawToVoltageFunc`. -/
  | undefined
  deriving DecidableEq, Repr

/-! ## Channel activation -/

/-- `static int ActivateXADCInput()`; returns the trace, the returned status
and the globals. -/
def ActivateXADCInput (env : TickEnv) (g : Globals) : List Effect × Nat × Globals :=
  match g.ActiveXADCInput with
  | .VAUX1 =>
    if env.setSingleChStatus ≠ XST_SUCCESS then
      ([.XSysMon_SetSingleChParams .VAUX1 false, .cerr .setSingleChParamsVAUX1Failed],
        XST_FAILURE, g)
    else
      ([.XSysMon_SetSingleChParams .VAUX1 false, .cout .VAUX1Activated],
        XST_SUCCESS, { g with Xadc_RawToVoltageFunc := .AUX1 })
  | .VPVN =>
    if env.setSingleChStatus ≠ XST_SUCCESS then
      ([.XSysMon_SetSingleChParams .VPVN true, .cerr .setSingleChParamsVPVNFailed],
        XST_FAILURE, g)
    else
      ([.XSysMon_SetSingleChParams .VPVN true, .cout .VPVNActivated],
        XST_SUCCESS, { g with Xadc_RawToVoltageFunc := .VPVN })

/-! ## Acquisition -/

/-- The loop `while( XAxiDma_Busy(..) ) vTaskDelay(..);` when the engine
answers busy `n` times. -/
def busyWait : Nat → List Effect
  | 0 => [.XAxiDma_Busy false]
  | n + 1 => .XAxiDma_Busy true :: .vTaskDelay :: busyWait n

/-- Content of `DataBuffer` after a transfer of `SAMPLE_COUNT * sizeof(u16)`
bytes: the first `SAMPLE_COUNT` elements are the stored samples, the padding
keeps its content. -/
def dmaStore (env : TickEnv) (old : List Nat) : List Nat :=
  (List.range DataBufferLen).map fun i =>
    if i < SAMPLE_COUNT then env.dmaSample i % 65536 else old.getD i 0

/-- `static int ReceiveData()`; the result is `none` when the wait for the DMA
engine never ends. -/
def ReceiveData (env : TickEnv) (g : Globals) : List Effect × Option (Nat × Globals) :=
  if env.simpleTransferStatus ≠ XST_SUCCESS then
    ([.Xil_DCacheFlushRange, .XAxiDma_SimpleTransfer (SAMPLE_COUNT * 2),
      .cerr .simpleTransferFailed], some (XST_FAILURE, g))
  else
    match env.busyPolls with
    | none =>
      ([.Xil_DCacheFlushRange, .XAxiDma_SimpleTransfer (SAMPLE_COUNT * 2),
        .XGpioPs_WritePin 54 1, .XGpioPs_WritePin 54 0], none)
    | some n =>
      ([.Xil_DCacheFlushRange, .XAxiDma_SimpleTransfer (SAMPLE_COUNT * 2),
        .XGpioPs_WritePin 54 1, .XGpioPs_WritePin 54 0] ++ busyWait n ++
        [.Xil_DCacheInvalidateRange],
        some (0, { g with DataBuffer := dmaStore env g.DataBuffer }))

/-! ## The main loop of `XADC_thread` -/

/-- The loop `for( int i = 0; i < 8; i++ ) cout << Xadc_RawToVoltageFunc( DataBuffer[i]) << endl;`
with `n` iterations left, at index `i`. -/
def printLoop (f : Nat → ℚ) (buf : List Nat) : Nat → Nat → List Effect
  | 0, _ => []
  | n + 1, i =>
    .readDataBuffer i :: .coutVoltage (f (buf.getD i 0)) :: printLoop f buf n (i + 1)

/-- The loop `for( int i = 0; i < SAMPLE_COUNT; i++ ) f << Xadc_RawToVoltageFunc( DataBuffer[i]) << '\n';`
with `n` iterations left, at index `i`; the flag tells whether a write threw. -/
def sendLoop (f : Nat → ℚ) (buf : List Nat) (throwsAt : Option Nat) :
    Nat → Nat → List Effect × Bool
  | 0, _ => ([], false)
  | n + 1, i =>
    if throwsAt = some i then
      ([.readDataBuffer i], true)
    else
      let r := sendLoop f buf throwsAt n (i + 1)
      (.readDataBuffer i :: .socketWrite (f (buf.getD i 0)) :: r.1, r.2)

/-- The `try` block with its `catch`: open the connection, send the series,
close the connection when the object leaves scope. -/
def sendData (f : Nat → ℚ) (env : TickEnv) (buf : List Nat) : List Effect :=
  if env.socketOpenThrows then
    [.socketOpen false, .cerr .socketError]
  else
    let r := sendLoop f buf env.socketWriteThrowsAt SAMPLE_COUNT 0
    if r.2 then
      [.socketOpen true, .cout .sendingData] ++ r.1 ++ [.socketClose, .cerr .socketError]
    else
      [.socketOpen true, .cout .sendingData] ++ r.1 ++ [.cout .sent, .socketClose]

/-- Body of `if( btns.ButtonPressed(BUTTON_PIN_0) )`. -/
def handleBTN0 (AVERAGING_MODE : AveragingMode) (env : TickEnv) (g : Globals) :
    List Effect × Outcome :=
  match ReceiveData env g with
  | (t, none) => (t, .blocked)
  | (t, some (Status, g1)) =>
    if Status = XST_FAILURE then
      (t ++ [.vTaskDelete], .deleted g1)
    else
      match g1.Xadc_RawToVoltageFunc.target AVERAGING_MODE with
      | none => (t ++ [.cout .dataHeader], .undefined)
      | some f =>
        (t ++ [.cout .dataHeader] ++ printLoop f g1.DataBuffer 8 0 ++
          sendData f env g1.DataBuffer, .next g1)

/-- Body of `if( btns.ButtonPressed(BUTTON_PIN_1) )`. -/
def handleBTN1 (env : TickEnv) (g : Globals) : List Effect × Outcome :=
  let g1 : Globals :=
    { g with ActiveXADCInput :=
        if g.ActiveXADCInput = .VAUX1 then .VPVN else .VAUX1 }
  match ActivateXADCInput env g1 with
  | (t, Status, g2) =>
    if Status = XST_FAILURE then (t ++ [.vTaskDelete], .deleted g2) else (t, .next g2)

/-- One pass of the body of `while(1)` in `XADC_thread`. -/
def XADC_tick (AVERAGING_MODE : AveragingMode) (env : TickEnv) (g : Globals) :
    List Effect × Outcome :=
  let r0 : List Effect × Outcome :=
    if env.BTN0 then handleBTN0 AVERAGING_MODE env g else ([], .next g)
  match r0 with
  | (t0, .next g1) =>
    let r1 : List Effect × Outcome :=
      if env.BTN1 then handleBTN1 env g1 else ([], .next g1)
    match r1 with
    | (t1, .next g2) => (.XGpioPs_Read :: t0 ++ t1 ++ [.vTaskDelay], .next g2)
    | (t1, o) => (.XGpioPs_Read :: t0 ++ t1, o)
  | (t0, o) => (.XGpioPs_Read :: t0, o)

/-- The loop `while(1)` over the answers of successive passes: it runs until
a pass does not reach the end of the body or the answers are used up. -/
def XADC_loop (AVERAGING_MODE : AveragingMode) : List TickEnv → Globals → List Effect × Outcome
  | [], g => ([], .next g)
  | env :: envs, g =>
    match XADC_tick AVERAGING_MODE env g with
    | (t, .next g1) =>
      let r := XADC_loop AVERAGING_MODE envs g1
      (t ++ r.1, r.2)
    | (t, o) => (t, o)

/-- The values written to the socket stream, in order. -/
def socketWrites : List Effect → List ℚ
  | [] => []
  | .socketWrite v :: t => v :: socketWrites t
  | _ :: t => socketWrites t

/-- The indices of `DataBuffer` that are read, in order. -/
def bufferReads : List Effect → List Nat
  | [] => []
  | .readDataBuffer i :: t => i :: bufferReads t
  | _ :: t => bufferReads t

/-! ## Concrete states and passes used as inputs -/

/-- The selector state: the active input and the decoder bound to the pointer. -/
def selector (g : Globals) : eXADCInput × FuncPtr :=
  (g.ActiveXADCInput, g.Xadc_RawToVoltageFunc)

/-- Globals after static initialisation and the first activation of `VAUX1`. -/
def startGlobals : Globals :=
  { DataBuffer := List.replicate DataBufferLen 0
    ActiveXADCInput := .VAUX1
    Xadc_RawToVoltageFunc := .AUX1 }

/-- A pass in which only button 1 is pressed and `XSysMon_SetSingleChParams`
reports failure. -/
def switchFailsEnv : TickEnv :=
  { BTN0 := false
    BTN1 := true
    simpleTransferStatus := XST_SUCCESS
    busyPolls := some 0
    dmaSample := fun _ => 0
    socketOpenThrows := false
    socketWriteThrowsAt := none
    setSingleChStatus := XST_FAILURE }

/-- A pass in which only button 0 is pressed and `XAxiDma_SimpleTransfer`
reports failure. -/
def transferFailsEnv : TickEnv :=
  { BTN0 := true
    BTN1 := false
    simpleTransferStatus := XST_FAILURE
    busyPolls := some 0
    dmaSample := fun _ => 0
    socketOpenThrows := false
    socketWriteThrowsAt := none
    setSingleChStatus := XST_SUCCESS }

/-- A pass in which only button 0 is pressed, every call succeeds and every
sample the DMA engine stores is `0x8000`. -/
def captureEnv : TickEnv :=
  { BTN0 := true
    BTN1 := false
    simpleTransferStatus := XST_SUCCESS
    busyPolls := some 1
    dmaSample := fun _ => 0x8000
    socketOpenThrows := false
    socketWriteThrowsAt := none
    setSingleChStatus := XST_SUCCESS }

/-- Globals with the bipolar input `VPVN` active and its decoder bound. -/
def bipolarGlobals : Globals :=
  { DataBuffer := List.replicate DataBufferLen 0
    ActiveXADCInput := .VPVN
    Xadc_RawToVoltageFunc := .VPVN }

/-- A pass in which only button 0 is pressed, the capture succeeds and the
third write on the socket stream throws. -/
def writeFailsEnv : TickEnv :=
  { BTN0 := true
    BTN1 := false
    simpleTransferStatus := XST_SUCCESS
    busyPolls := some 1
    dmaSample := fun _ => 0x8000
    socketOpenThrows := false
    socketWriteThrowsAt := some 2
    setSingleChStatus := XST_SUCCESS }

/-- A pass in which both buttons are pressed, the capture succeeds, the
constructor of `FileViaSocket` throws and the channel switch succeeds. -/
def openFailsBothPressedEnv : TickEnv :=
  { BTN0 := true
    BTN1 := true
    simpleTransferStatus := XST_SUCCESS
    busyPolls := some 0
    dmaSample := fun _ => 0
    socketOpenThrows := true
    socketWriteThrowsAt := none
    setSingleChStatus := XST_SUCCESS }

/-- A pass in which both buttons are pressed, the capture succeeds, the
constructor of `FileViaSocket` throws and `XSysMon_SetSingleChParams` fails. -/
def openFailsSwitchFailsEnv : TickEnv :=
  { BTN0 := true
    BTN1 := true
    simpleTransferStatus := XST_SUCCESS
    busyPolls := some 0
    dmaSample := fun _ => 0
    socketOpenThrows := true
    socketWriteThrowsAt := none
    setSingleChStatus := XST_FAILURE }

/-- A pass in which both buttons are pressed and every call succeeds. -/
def bothPressedEnv : TickEnv :=
  { BTN0 := true
    BTN1 := true
    simpleTransferStatus := XST_SUCCESS
    busyPolls := some 1
    dmaSample := fun _ => 0x8000
    socketOpenThrows := false
    socketWriteThrowsAt := none
    setSingleChStatus := XST_SUCCESS }

/-! ## Arithmetic of the bit operations -/

theorem shiftRight_four (x : Nat) : x >>> 4 = x / 16 :=
  Nat.shiftRight_eq_div_pow x 4

theorem land_two_pow (x i : Nat) : x &&& 2 ^ i = (x / 2 ^ i % 2) * 2 ^ i := by
  rw [Nat.and_two_pow, Nat.testBit_to_div_mod]
  rcases Nat.mod_two_eq_zero_or_one (x / 2 ^ i) with h | h <;> simp [h]

theorem signBit_set_iff (x : Nat) (hx : x < 65536) : x &&& 0x8000 ≠ 0 ↔ 32768 ≤ x := by
  have h := land_two_pow x 15
  norm_num at h
  rw [h]
  omega

theorem u16Negate_eq (x : Nat) (h0 : 0 < x) (hx : x < 65536) : u16Negate x = 65536 - x := by
  unfold u16Negate
  omega

/-! ## Rounding to binary32 and binary64 -/

theorem bitLength_lt (fuel n : Nat) (h : n ≤ fuel) : n < 2 ^ bitLength fuel n := by
  induction fuel generalizing n with
  | zero =>
    have : n = 0 := by omega
    subst this
    simp [bitLength]
  | succ f ih =>
    unfold bitLength
    by_cases h0 : n = 0
    · simp [h0]
    · rw [if_neg h0]
      have := ih (n / 2) (by omega)
      rw [pow_succ]
      omega

theorem bitLength_le (fuel n : Nat) (h : n ≤ fuel) (hn : 0 < n) :
    2 ^ (bitLength fuel n - 1) ≤ n ∧ 1 ≤ bitLength fuel n := by
  induction fuel generalizing n with
  | zero => omega
  | succ f ih =>
    unfold bitLength
    rw [if_neg (by omega)]
    by_cases h2 : n / 2 = 0
    · have : bitLength f (n / 2) = 0 := by
        rw [h2]; cases f <;> simp [bitLength]
      rw [this]
      simp
      omega
    · obtain ⟨h3, h4⟩ := ih (n / 2) (by omega) (by omega)
      refine ⟨?_, by omega⟩
      have e : bitLength f (n / 2) + 1 - 1 = (bitLength f (n / 2) - 1) + 1 := by omega
      rw [e, pow_succ]
      omega

theorem binaryExponent_le (a : ℚ) (ha : 0 < a) : (2 : ℚ) ^ binaryExponent a ≤ a := by
  unfold binaryExponent
  simp only
  split_ifs with h
  · exact h
  · have hnum : 0 < a.num := Rat.num_pos.mpr ha
    have hn : 0 < a.num.natAbs := Int.natAbs_pos.mpr (ne_of_gt hnum)
    obtain ⟨h1, h2⟩ := bitLength_le a.num.natAbs a.num.natAbs le_rfl hn
    have h3 := bitLength_lt a.den a.den le_rfl
    set bn := bitLength a.num.natAbs a.num.natAbs
    set bd := bitLength a.den a.den
    have e : ((bn : ℤ) - (bd : ℤ) - 1) = ((bn - 1 : ℕ) : ℤ) - (bd : ℤ) := by omega
    rw [e, zpow_sub₀ (by norm_num), zpow_natCast, zpow_natCast]
    have habs : ((a.num.natAbs : ℕ) : ℤ) = a.num := Int.natAbs_of_nonneg (le_of_lt hnum)
    have hcast : ((a.num.natAbs : ℕ) : ℚ) = (a.num : ℚ) :=
      calc ((a.num.natAbs : ℕ) : ℚ) = (((a.num.natAbs : ℕ) : ℤ) : ℚ) := (Int.cast_natCast _).symm
        _ = (a.num : ℚ) := congrArg Int.cast habs
    have ha' : a = (a.num.natAbs : ℚ) / (a.den : ℚ) := by
      rw [hcast]
      exact (Rat.num_div_den a).symm
    rw [ha']
    have hd : (0 : ℚ) < (a.den : ℚ) := by exact_mod_cast a.den_pos
    rw [div_le_div_iff₀ (by positivity) hd]
    have h1' : ((2 : ℚ) ^ (bn - 1)) ≤ (a.num.natAbs : ℚ) := by exact_mod_cast h1
    have h3' : (a.den : ℚ) ≤ (2 : ℚ) ^ bd := by exact_mod_cast le_of_lt h3
    have hn0 : (0 : ℚ) ≤ (a.num.natAbs : ℚ) := Nat.cast_nonneg _
    have hp : (0 : ℚ) ≤ (2 : ℚ) ^ (bn - 1) := by positivity
    calc (2 : ℚ) ^ (bn - 1) * (a.den : ℚ) ≤ (2 : ℚ) ^ (bn - 1) * (2 : ℚ) ^ bd :=
          mul_le_mul_of_nonneg_left h3' hp
      _ ≤ (a.num.natAbs : ℚ) * (2 : ℚ) ^ bd :=
          mul_le_mul_of_nonneg_right h1' (by positivity)

theorem binaryExponent_lt (a : ℚ) (ha : 0 < a) : a < (2 : ℚ) ^ (binaryExponent a + 1) := by
  unfold binaryExponent
  simp only
  split_ifs with h
  · have hnum : 0 < a.num := Rat.num_pos.mpr ha
    have hn : 0 < a.num.natAbs := Int.natAbs_pos.mpr (ne_of_gt hnum)
    have h1 := bitLength_lt a.num.natAbs a.num.natAbs le_rfl
    obtain ⟨h3, h4⟩ := bitLength_le a.den a.den le_rfl a.den_pos
    set bn := bitLength a.num.natAbs a.num.natAbs
    set bd := bitLength a.den a.den
    have e : ((bn : ℤ) - (bd : ℤ) + 1) = (bn : ℤ) - ((bd - 1 : ℕ) : ℤ) := by omega
    rw [e, zpow_sub₀ (by norm_num), zpow_natCast, zpow_natCast]
    have habs : ((a.num.natAbs : ℕ) : ℤ) = a.num := Int.natAbs_of_nonneg (le_of_lt hnum)
    have hcast : ((a.num.natAbs : ℕ) : ℚ) = (a.num : ℚ) :=
      calc ((a.num.natAbs : ℕ) : ℚ) = (((a.num.natAbs : ℕ) : ℤ) : ℚ) := (Int.cast_natCast _).symm
        _ = (a.num : ℚ) := congrArg Int.cast habs
    have ha' : a = (a.num.natAbs : ℚ) / (a.den : ℚ) := by
      rw [hcast]
      exact (Rat.num_div_den a).symm
    have hd : (0 : ℚ) < (a.den : ℚ) := by exact_mod_cast a.den_pos
    have h1' : (a.num.natAbs : ℚ) < (2 : ℚ) ^ bn := by exact_mod_cast h1
    have h3' : (2 : ℚ) ^ (bd - 1) ≤ (a.den : ℚ) := by exact_mod_cast h3
    have hp : (0 : ℚ) < (2 : ℚ) ^ (bd - 1) := by positivity
    have hq : (0 : ℚ) < (2 : ℚ) ^ bn := by positivity
    rw [ha', div_lt_div_iff₀ hd hp]
    calc (a.num.natAbs : ℚ) * (2 : ℚ) ^ (bd - 1) < (2 : ℚ) ^ bn * (2 : ℚ) ^ (bd - 1) :=
          mul_lt_mul_of_pos_right h1' hp
      _ ≤ (2 : ℚ) ^ bn * (a.den : ℚ) := mul_le_mul_of_nonneg_left h3' (le_of_lt hq)
  · rw [sub_add_cancel]
    exact lt_of_not_le h

theorem roundNearestEven_zero (p : Nat) (kmin : Int) : roundNearestEven p kmin 0 = 0 := by
  simp [roundNearestEven]

theorem roundNearestEven_neg (p : Nat) (kmin : Int) (q : ℚ) :
    roundNearestEven p kmin (-q) = -roundNearestEven p kmin q := by
  rcases lt_trichotomy q 0 with h | h | h
  · have h1 : ¬ (-q < 0) := by linarith
    have h2 : q ≠ 0 := ne_of_lt h
    have h3 : -q ≠ 0 := by intro e; apply h2; linarith
    simp only [roundNearestEven, if_neg h2, if_neg h3, abs_neg, if_pos h, if_neg h1, neg_neg]
  · subst h
    simp [roundNearestEven]
  · have h1 : -q < 0 := by linarith
    have h2 : q ≠ 0 := ne_of_gt h
    have h3 : -q ≠ 0 := by intro e; apply h2; linarith
    have h4 : ¬ q < 0 := by linarith
    simp only [roundNearestEven, if_neg h2, if_neg h3, abs_neg, if_pos h1, if_neg h4]

theorem roundNearestEven_pos_form (p : Nat) (kmin : Int) (q : ℚ) (hq : 0 < q) :
    ∃ m : ℤ, roundNearestEven p kmin q =
        (m : ℚ) * 2 ^ (max (binaryExponent q - ((p : Int) - 1)) kmin) ∧
      |(m : ℚ) - q / 2 ^ (max (binaryExponent q - ((p : Int) - 1)) kmin)| ≤ 1 / 2 ∧
      0 ≤ m := by
  have h2 : q ≠ 0 := ne_of_gt hq
  have h4 : ¬ q < 0 := by linarith
  simp only [roundNearestEven, if_neg h2, if_neg h4, abs_of_pos hq]
  set k := max (binaryExponent q - ((p : Int) - 1)) kmin
  set x := q / 2 ^ k
  have hx0 : 0 ≤ x := div_nonneg (le_of_lt hq) (by positivity)
  have hfl0 : 0 ≤ ⌊x⌋ := Int.floor_nonneg.mpr hx0
  have hle : (⌊x⌋ : ℚ) ≤ x := Int.floor_le x
  have hlt : x < (⌊x⌋ : ℚ) + 1 := Int.lt_floor_add_one x
  by_cases c1 : x - ⌊x⌋ < 1 / 2
  · refine ⟨⌊x⌋, by rw [if_pos c1], ?_, hfl0⟩
    rw [abs_le]; constructor <;> linarith
  · by_cases c2 : 1 / 2 < x - ⌊x⌋
    · refine ⟨⌊x⌋ + 1, by rw [if_neg c1, if_pos c2], ?_, by omega⟩
      rw [abs_le]; push_cast; constructor <;> linarith
    · by_cases c3 : ⌊x⌋ % 2 = 0
      · refine ⟨⌊x⌋, by rw [if_neg c1, if_neg c2, if_pos c3], ?_, hfl0⟩
        rw [abs_le]; constructor <;> linarith
      · refine ⟨⌊x⌋ + 1, by rw [if_neg c1, if_neg c2, if_neg c3], ?_, by omega⟩
        rw [abs_le]; push_cast; constructor <;> linarith

theorem roundNearestEven_nonneg (p : Nat) (kmin : Int) (q : ℚ) (hq : 0 ≤ q) :
    0 ≤ roundNearestEven p kmin q := by
  rcases eq_or_lt_of_le hq with h | h
  · rw [← h, roundNearestEven_zero]
  · obtain ⟨m, hm, _, hm0⟩ := roundNearestEven_pos_form p kmin q h
    rw [hm]
    have : (0 : ℚ) ≤ (m : ℚ) := by exact_mod_cast hm0
    positivity

theorem roundNearestEven_error_pos (p : Nat) (kmin : Int) (q : ℚ) (hq : 0 < q) :
    |roundNearestEven p kmin q - q| ≤ q / 2 ^ p + 2 ^ kmin / 2 := by
  obtain ⟨m, hm, hmx, _⟩ := roundNearestEven_pos_form p kmin q hq
  have hL := binaryExponent_le q hq
  set e := binaryExponent q
  set k := max (e - ((p : Int) - 1)) kmin
  have hk : (0 : ℚ) < 2 ^ k := by positivity
  have h1 : roundNearestEven p kmin q - q = ((m : ℚ) - q / 2 ^ k) * 2 ^ k := by
    rw [hm]; field_simp
  rw [h1, abs_mul, abs_of_pos hk]
  have h2 : |(m : ℚ) - q / 2 ^ k| * 2 ^ k ≤ 1 / 2 * 2 ^ k :=
    mul_le_mul_of_nonneg_right hmx (le_of_lt hk)
  have h3 : (2 : ℚ) ^ k ≤ 2 * q / 2 ^ p + 2 ^ kmin := by
    have hA : (2 : ℚ) ^ (e - ((p : Int) - 1)) ≤ 2 * q / 2 ^ p := by
      have e1 : e - ((p : Int) - 1) = e + 1 - (p : Int) := by ring
      rw [e1, zpow_sub₀ (by norm_num), zpow_add₀ (by norm_num), zpow_natCast, zpow_one]
      rw [div_le_div_iff_of_pos_right (by positivity)]
      linarith
    have hB : (0 : ℚ) < 2 ^ kmin := by positivity
    have hC : (0 : ℚ) < 2 ^ (e - ((p : Int) - 1)) := by positivity
    rcases le_total (e - ((p : Int) - 1)) kmin with hmax | hmax
    · have : k = kmin := max_eq_right hmax
      rw [this]; linarith
    · have : k = e - ((p : Int) - 1) := max_eq_left hmax
      rw [this]; linarith
  have h4 : 1 / 2 * (2 : ℚ) ^ k ≤ q / 2 ^ p + 2 ^ kmin / 2 := by
    have : 2 * q / 2 ^ p = 2 * (q / 2 ^ p) := by ring
    linarith
  linarith

theorem roundNearestEven_error (p : Nat) (kmin : Int) (q : ℚ) :
    |roundNearestEven p kmin q - q| ≤ |q| / 2 ^ p + 2 ^ kmin / 2 := by
  have hB : (0 : ℚ) < 2 ^ kmin := by positivity
  rcases lt_trichotomy q 0 with h | h | h
  · have h' : 0 < -q := by linarith
    have := roundNearestEven_error_pos p kmin (-q) h'
    rw [roundNearestEven_neg] at this
    rw [abs_of_neg h]
    have e : -roundNearestEven p kmin q - -q = -(roundNearestEven p kmin q - q) := by ring
    rw [e, abs_neg] at this
    exact this
  · subst h
    rw [roundNearestEven_zero]
    simp
    positivity
  · rw [abs_of_pos h]
    exact roundNearestEven_error_pos p kmin q h

theorem roundNearestEven_exact (p : Nat) (kmin : Int) (M : Nat) (j : Int)
    (hM : M < 2 ^ p) (hj : kmin ≤ j) :
    roundNearestEven p kmin ((M : ℚ) * 2 ^ j) = (M : ℚ) * 2 ^ j := by
  rcases Nat.eq_zero_or_pos M with h0 | hpos
  · subst h0
    simp [roundNearestEven_zero]
  · have hMq : (0 : ℚ) < (M : ℚ) := by exact_mod_cast hpos
    have hq : (0 : ℚ) < (M : ℚ) * 2 ^ j := by positivity
    obtain ⟨m, hm, hmx, _⟩ := roundNearestEven_pos_form p kmin _ hq
    have hL := binaryExponent_le _ hq
    set e := binaryExponent ((M : ℚ) * 2 ^ j)
    set k := max (e - ((p : Int) - 1)) kmin
    have he : e < (p : Int) + j := by
      have h1 : (M : ℚ) * 2 ^ j < (2 : ℚ) ^ ((p : Int) + j) := by
        rw [zpow_add₀ (by norm_num), zpow_natCast]
        have : (M : ℚ) < (2 : ℚ) ^ p := by exact_mod_cast hM
        exact mul_lt_mul_of_pos_right this (by positivity)
      exact (zpow_lt_zpow_iff_right₀ (by norm_num : (1 : ℚ) < 2)).mp (lt_of_le_of_lt hL h1)
    have hk : k ≤ j := max_le (by omega) hj
    have hx : (M : ℚ) * 2 ^ j / 2 ^ k = ((M * 2 ^ (j - k).toNat : ℕ) : ℚ) := by
      have e1 : j = ((j - k).toNat : ℤ) + k := by
        rw [Int.toNat_of_nonneg (by omega)]; ring
      have hk0 : (0 : ℚ) < 2 ^ k := by positivity
      rw [div_eq_iff (ne_of_gt hk0)]
      push_cast
      nth_rewrite 1 [e1]
      rw [zpow_add₀ (by norm_num), zpow_natCast]
      ring
    rw [hx] at hmx
    have hmX : m = ((M * 2 ^ (j - k).toNat : ℕ) : ℤ) := by
      have h2 : |((m - ((M * 2 ^ (j - k).toNat : ℕ) : ℤ) : ℤ) : ℚ)| < 1 := by
        push_cast
        push_cast at hmx
        linarith
      have h3 : |m - ((M * 2 ^ (j - k).toNat : ℕ) : ℤ)| < 1 := by
        exact_mod_cast h2
      have := Int.abs_lt_one_iff.mp h3
      omega
    rw [hm, hmX]
    have hk0 : (0 : ℚ) < 2 ^ k := by positivity
    have := hx
    rw [div_eq_iff (ne_of_gt hk0)] at this
    rw [this]
    push_cast
    ring

theorem roundBinary32_error (q : ℚ) : |roundBinary32 q - q| ≤ |q| / 2 ^ 24 + 1 / 2 ^ 150 := by
  have h := roundNearestEven_error 24 (-149) q
  have e : (2 : ℚ) ^ (-149 : ℤ) / 2 = 1 / 2 ^ 150 := by
    rw [zpow_neg]; norm_num
  rw [e] at h
  exact h

theorem roundBinary64_error (q : ℚ) : |roundBinary64 q - q| ≤ |q| / 2 ^ 53 + 1 / 2 ^ 1075 := by
  have h := roundNearestEven_error 53 (-1074) q
  have e : (2 : ℚ) ^ (-1074 : ℤ) / 2 = 1 / 2 ^ 1075 := by
    rw [zpow_neg]; norm_num
  rw [e] at h
  exact h

theorem roundBinary32_neg (q : ℚ) : roundBinary32 (-q) = -roundBinary32 q :=
  roundNearestEven_neg 24 (-149) q

theorem roundBinary64_neg (q : ℚ) : roundBinary64 (-q) = -roundBinary64 q :=
  roundNearestEven_neg 53 (-1074) q

theorem roundBinary32_natCast (M : Nat) (hM : M < 2 ^ 24) : roundBinary32 (M : ℚ) = (M : ℚ) := by
  have h := roundNearestEven_exact 24 (-149) M 0 hM (by norm_num)
  simpa [roundBinary32] using h

theorem roundBinary32_div_4096 (M : Nat) (hM : M < 2 ^ 24) :
    roundBinary32 ((M : ℚ) / 4096) = (M : ℚ) / 4096 := by
  have h := roundNearestEven_exact 24 (-149) M (-12) hM (by norm_num)
  have e : (M : ℚ) * 2 ^ (-12 : ℤ) = (M : ℚ) / 4096 := by
    rw [zpow_neg]; norm_num; ring
  rw [e] at h
  exact h

theorem roundBinary64_div_4096 (M : Nat) (hM : M < 2 ^ 53) :
    roundBinary64 ((M : ℚ) / 4096) = (M : ℚ) / 4096 := by
  have h := roundNearestEven_exact 53 (-1074) M (-12) hM (by norm_num)
  have e : (M : ℚ) * 2 ^ (-12 : ℤ) = (M : ℚ) / 4096 := by
    rw [zpow_neg]; norm_num; ring
  rw [e] at h
  exact h

theorem roundBinary64_recip_4096 : roundBinary64 (1.0 / 4096.0) = 1 / 4096 := by
  decide!

theorem roundBinary64_recip_65535 :
    roundBinary64 (1.0 / 65535.0) = 281479271743489 / 18446744073709551616 := by
  decide!

/-! ## Closed forms of the bipolar decoder -/

theorem VPVN_averaging_eq (m : AveragingMode) (hm : m ≠ .XSM_AVG_0_SAMPLES) (raw : Nat)
    (hraw : raw < 65536) :
    Xadc_RawToVoltageVPVN m raw =
      if raw = 32768 then -1 / 2
      else if 32768 ≤ raw then -((65536 - raw : Nat) : ℚ) / 65535
      else (raw : ℚ) / 65535 := by
  unfold Xadc_RawToVoltageVPVN
  rw [if_neg hm]
  by_cases h1 : raw = 32768
  · subst h1; norm_num
  · have h2 : (raw = 0x8000) = False := by simpa using h1
    simp only [h2, if_false, if_neg h1]
    by_cases h3 : 32768 ≤ raw
    · have h4 : raw &&& 0x8000 ≠ 0 := (signBit_set_iff raw hraw).2 h3
      rw [if_pos h4, if_pos h4, if_pos h3, u16Negate_eq raw (by omega) hraw]
      norm_num
      ring
    · have h4 : ¬ (raw &&& 0x8000 ≠ 0) := fun h => h3 ((signBit_set_iff raw hraw).1 h)
      rw [if_neg h4, if_neg h4, if_neg h3]
      norm_num
      ring

theorem VPVN_noAveraging_eq (raw : Nat) (hraw : raw < 65536) :
    Xadc_RawToVoltageVPVN .XSM_AVG_0_SAMPLES raw =
      if raw / 16 = 2048 then -1 / 2
      else if 32768 ≤ raw then -(((65536 - raw) / 16 : Nat) : ℚ) / 4096
      else ((raw / 16 : Nat) : ℚ) / 4096 := by
  unfold Xadc_RawToVoltageVPVN
  rw [if_pos rfl, shiftRight_four]
  by_cases h1 : raw / 16 = 2048
  · rw [if_pos h1, if_pos h1]; norm_num
  · have h2 : (raw / 16 = 0x800) = False := by simpa using h1
    simp only [h2, if_false, if_neg h1]
    by_cases h3 : 32768 ≤ raw
    · have h4 : raw &&& 0x8000 ≠ 0 := (signBit_set_iff raw hraw).2 h3
      rw [if_pos h4, if_pos h4, if_pos h3, u16Negate_eq raw (by omega) hraw, shiftRight_four]
      norm_num
      ring
    · have h4 : ¬ (raw &&& 0x8000 ≠ 0) := fun h => h3 ((signBit_set_iff raw hraw).1 h)
      rw [if_neg h4, if_neg h4, if_neg h3, shiftRight_four]
      norm_num
      ring

/-- The product chain of the bipolar decoder on a magnitude below `2^24` and
the weight `1/4096` is exact. -/
theorem VPVN_binary32_chain_4096 (M : Nat) (hM : M < 2 ^ 24) :
    roundBinary32 (roundBinary64 (roundBinary32 (M : ℚ) * roundBinary64 (1.0 / 4096.0))) =
      (M : ℚ) / 4096 := by
  have e : (M : ℚ) * (1 / 4096) = (M : ℚ) / 4096 := by ring
  rw [roundBinary32_natCast M hM, roundBinary64_recip_4096, e,
    roundBinary64_div_4096 M (lt_of_lt_of_le hM (by norm_num)), roundBinary32_div_4096 M hM]

theorem VPVN_binary32_chain_neg (M : Nat) (c : ℚ) :
    roundBinary32 (roundBinary64 (roundBinary32 (-(M : ℚ)) * c)) =
      -roundBinary32 (roundBinary64 (roundBinary32 (M : ℚ) * c)) := by
  rw [roundBinary32_neg, neg_mul, roundBinary64_neg, roundBinary32_neg]

/-- Without averaging the binary32 decoder returns the same value as the
decoder in exact arithmetic: every operation is exact. -/
theorem VPVN_binary32_noAveraging_eq (raw : Nat) (hraw : raw < 65536) :
    Xadc_RawToVoltageVPVN_binary32 .XSM_AVG_0_SAMPLES raw =
      if raw / 16 = 2048 then -1 / 2
      else if 32768 ≤ raw then -(((65536 - raw) / 16 : Nat) : ℚ) / 4096
      else ((raw / 16 : Nat) : ℚ) / 4096 := by
  unfold Xadc_RawToVoltageVPVN_binary32
  rw [if_pos rfl, shiftRight_four]
  by_cases h1 : raw / 16 = 2048
  · rw [if_pos h1, if_pos h1]; norm_num
  · have h2 : (raw / 16 = 0x800) = False := by simpa using h1
    simp only [h2, if_false, if_neg h1]
    by_cases h3 : 32768 ≤ raw
    · have h4 : raw &&& 0x8000 ≠ 0 := (signBit_set_iff raw hraw).2 h3
      rw [if_pos h4, if_pos h4, if_pos h3, u16Negate_eq raw (by omega) hraw, shiftRight_four]
      have hb : (65536 - raw) / 16 < 2 ^ 24 := by norm_num; omega
      have e : (-1.0 : ℚ) * (((65536 - raw) / 16 : Nat) : ℚ) =
          -(((65536 - raw) / 16 : Nat) : ℚ) := by norm_num
      rw [e, VPVN_binary32_chain_neg, VPVN_binary32_chain_4096 _ hb]
      ring
    · have h4 : ¬ (raw &&& 0x8000 ≠ 0) := fun h => h3 ((signBit_set_iff raw hraw).1 h)
      rw [if_neg h4, if_neg h4, if_neg h3, shiftRight_four]
      have hb : raw / 16 < 2 ^ 24 := by norm_num; omega
      have e : (1.0 : ℚ) * ((raw / 16 : Nat) : ℚ) = ((raw / 16 : Nat) : ℚ) := by norm_num
      rw [e, VPVN_binary32_chain_4096 _ hb]

/-- With averaging the binary32 decoder returns the sign times the rounded
product of the magnitude and the binary64 value of `1.0/65535.0`. -/
theorem VPVN_binary32_averaging_eq (m : AveragingMode) (hm : m ≠ .XSM_AVG_0_SAMPLES)
    (raw : Nat) (hraw : raw < 65536) :
    Xadc_RawToVoltageVPVN_binary32 m raw =
      if raw = 32768 then -1 / 2
      else if 32768 ≤ raw then
        -roundBinary32 (roundBinary64
          (((65536 - raw : Nat) : ℚ) * (281479271743489 / 18446744073709551616)))
      else
        roundBinary32 (roundBinary64
          ((raw : ℚ) * (281479271743489 / 18446744073709551616))) := by
  unfold Xadc_RawToVoltageVPVN_binary32
  rw [if_neg hm]
  by_cases h1 : raw = 32768
  · subst h1; norm_num
  · have h2 : (raw = 0x8000) = False := by simpa using h1
    simp only [h2, if_false, if_neg h1]
    by_cases h3 : 32768 ≤ raw
    · have h4 : raw &&& 0x8000 ≠ 0 := (signBit_set_iff raw hraw).2 h3
      rw [if_pos h4, if_pos h4, if_pos h3, u16Negate_eq raw (by omega) hraw]
      have hb : 65536 - raw < 2 ^ 24 := by norm_num; omega
      have e : (-1.0 : ℚ) * ((65536 - raw : Nat) : ℚ) = -((65536 - raw : Nat) : ℚ) := by
        norm_num
      rw [e, VPVN_binary32_chain_neg, roundBinary32_natCast _ hb,
        roundBinary64_recip_65535]
    · have h4 : ¬ (raw &&& 0x8000 ≠ 0) := fun h => h3 ((signBit_set_iff raw hraw).1 h)
      rw [if_neg h4, if_neg h4, if_neg h3]
      have hb : raw < 2 ^ 24 := by norm_num; omega
      have e : (1.0 : ℚ) * (raw : ℚ) = (raw : ℚ) := by norm_num
      rw [e, roundBinary32_natCast _ hb, roundBinary64_recip_65535]

/-- The rounded product of a magnitude `M` below `2^15` and the binary64 value
of `1.0/65535.0` lies in the interval from `M/2^16` to `(M+1)/2^16`. -/
theorem VPVN_binary32_magnitude_bounds (M : Nat) (hM : M < 32768) :
    (M : ℚ) / 2 ^ 16 ≤
      roundBinary32 (roundBinary64 ((M : ℚ) * (281479271743489 / 18446744073709551616))) ∧
    roundBinary32 (roundBinary64 ((M : ℚ) * (281479271743489 / 18446744073709551616))) <
      ((M : ℚ) + 1) / 2 ^ 16 := by
  have hM0 : (0 : ℚ) ≤ (M : ℚ) := Nat.cast_nonneg M
  have hM1 : (M : ℚ) ≤ 32767 := by exact_mod_cast (by omega : M ≤ 32767)
  set t : ℚ := (M : ℚ) * (281479271743489 / 18446744073709551616) with ht
  have ht0 : 0 ≤ t := mul_nonneg hM0 (by norm_num)
  set u : ℚ := roundBinary64 t with hu
  have hu0 : 0 ≤ u := roundNearestEven_nonneg 53 (-1074) t ht0
  have hue := roundBinary64_error t
  rw [← hu, abs_of_nonneg ht0, abs_le] at hue
  set w : ℚ := roundBinary32 u with hw
  have hw0 : 0 ≤ w := roundNearestEven_nonneg 24 (-149) u hu0
  have hwe := roundBinary32_error u
  rw [← hw, abs_of_nonneg hu0, abs_le] at hwe
  have e150 : (1 : ℚ) / 2 ^ 150 ≤ 1 / 2 ^ 60 := by
    apply one_div_le_one_div_of_le (by positivity)
    exact pow_le_pow_right₀ (by norm_num) (by norm_num)
  have e1075 : (1 : ℚ) / 2 ^ 1075 ≤ 1 / 2 ^ 60 := by
    apply one_div_le_one_div_of_le (by positivity)
    exact pow_le_pow_right₀ (by norm_num) (by norm_num)
  have e60 : (1 : ℚ) / 2 ^ 60 = 1 / 1152921504606846976 := by norm_num
  have e24 : (2 : ℚ) ^ 24 = 16777216 := by norm_num
  have e53 : (2 : ℚ) ^ 53 = 9007199254740992 := by norm_num
  have e16 : (2 : ℚ) ^ 16 = 65536 := by norm_num
  rw [e60] at e150 e1075
  rw [e53] at hue
  rw [e24] at hwe
  rw [e16]
  constructor
  · rcases Nat.eq_zero_or_pos M with h0 | hpos
    · subst h0
      simpa using hw0
    · have hM2 : (1 : ℚ) ≤ (M : ℚ) := by exact_mod_cast hpos
      linarith [hue.1, hue.2, hwe.1, hwe.2]
  · linarith [hue.1, hue.2, hwe.1, hwe.2]

/-! ## Closed forms of the unipolar decoder -/

theorem AUX1_noAveraging_eq (raw : Nat) :
    Xadc_RawToVoltageAUX1 .XSM_AVG_0_SAMPLES raw =
      (3.32 : ℚ) * ((raw / 16 : Nat) : ℚ) / 4095 := by
  unfold Xadc_RawToVoltageAUX1
  rw [if_pos rfl, shiftRight_four]
  norm_num
  ring

theorem Scale_binary32 : roundBinary32 (roundBinary64 3.32) = 13925089 / 4194304 := by
  decide!

theorem AUX1_binary32_noAveraging_eq (raw : Nat) :
    Xadc_RawToVoltageAUX1_binary32 .XSM_AVG_0_SAMPLES raw =
      roundBinary32 (13925089 / 4194304 * roundBinary32 (((raw / 16 : Nat) : ℚ) / 4095)) := by
  unfold Xadc_RawToVoltageAUX1_binary32
  rw [if_pos rfl, shiftRight_four]
  simp only [Scale_binary32]
  norm_num

theorem AUX1_binary32_fullScale :
    roundBinary32 (13925089 / 4194304 * roundBinary32 (((4095 : Nat) : ℚ) / 4095)) =
      13925089 / 4194304 := by
  decide!

theorem AUX1_binary32_bounds (k : Nat) (hk : k ≤ 4094) :
    0 ≤ roundBinary32 (13925089 / 4194304 * roundBinary32 ((k : ℚ) / 4095)) ∧
    roundBinary32 (13925089 / 4194304 * roundBinary32 ((k : ℚ) / 4095)) < 13925089 / 4194304 ∧
    |roundBinary32 (13925089 / 4194304 * roundBinary32 ((k : ℚ) / 4095)) -
      (3.32 : ℚ) * (k : ℚ) / 4095| ≤ 1 / 2 ^ 21 := by
  have hk0 : (0 : ℚ) ≤ (k : ℚ) := Nat.cast_nonneg k
  have hk1 : (k : ℚ) ≤ 4094 := by exact_mod_cast hk
  set t : ℚ := (k : ℚ) / 4095 with ht
  have ht0 : 0 ≤ t := div_nonneg hk0 (by norm_num)
  have ht1 : t ≤ 4094 / 4095 := by
    rw [ht, div_le_div_iff_of_pos_right (by norm_num)]; exact hk1
  set y : ℚ := roundBinary32 t with hy
  have hy0 : 0 ≤ y := roundNearestEven_nonneg 24 (-149) t ht0
  have hye := roundBinary32_error t
  rw [← hy, abs_of_nonneg ht0, abs_le] at hye
  have hSy0 : (0 : ℚ) ≤ 13925089 / 4194304 * y := mul_nonneg (by norm_num) hy0
  set v : ℚ := roundBinary32 (13925089 / 4194304 * y) with hv
  have hv0 : 0 ≤ v := roundNearestEven_nonneg 24 (-149) _ hSy0
  have hve := roundBinary32_error (13925089 / 4194304 * y)
  rw [← hv, abs_of_nonneg hSy0, abs_le] at hve
  have e150 : (1 : ℚ) / 2 ^ 150 ≤ 1 / 2 ^ 40 := by
    apply one_div_le_one_div_of_le (by positivity)
    exact pow_le_pow_right₀ (by norm_num) (by norm_num)
  have e40 : (1 : ℚ) / 2 ^ 40 = 1 / 1099511627776 := by norm_num
  have e24 : (2 : ℚ) ^ 24 = 16777216 := by norm_num
  have e21 : (2 : ℚ) ^ 21 = 2097152 := by norm_num
  rw [e24] at hye hve
  rw [e40] at e150
  have ex : (3.32 : ℚ) * (k : ℚ) / 4095 = 83 / 25 * t := by rw [ht]; norm_num; ring
  refine ⟨hv0, ?_, ?_⟩
  · linarith [hye.1, hye.2, hve.1, hve.2]
  · rw [ex, e21, abs_le]
    constructor <;> linarith [hye.1, hye.2, hve.1, hve.2]

/-! ## Traces of the loops -/

theorem socketWrites_append (l₁ l₂ : List Effect) :
    socketWrites (l₁ ++ l₂) = socketWrites l₁ ++ socketWrites l₂ := by
  induction l₁ with
  | nil => rfl
  | cons e t ih => cases e <;> simp [socketWrites, ih]

theorem bufferReads_append (l₁ l₂ : List Effect) :
    bufferReads (l₁ ++ l₂) = bufferReads l₁ ++ bufferReads l₂ := by
  induction l₁ with
  | nil => rfl
  | cons e t ih => cases e <;> simp [bufferReads, ih]

theorem socketWrites_busyWait (n : Nat) : socketWrites (busyWait n) = [] := by
  induction n with
  | zero => rfl
  | succ n ih => simp [busyWait, socketWrites, ih]

theorem bufferReads_busyWait (n : Nat) : bufferReads (busyWait n) = [] := by
  induction n with
  | zero => rfl
  | succ n ih => simp [busyWait, bufferReads, ih]

theorem socketWrites_printLoop (f : Nat → ℚ) (buf : List Nat) (n i : Nat) :
    socketWrites (printLoop f buf n i) = [] := by
  induction n generalizing i with
  | zero => rfl
  | succ n ih => simp [printLoop, socketWrites, ih]

theorem bufferReads_printLoop (f : Nat → ℚ) (buf : List Nat) (n i : Nat) :
    bufferReads (printLoop f buf n i) = List.range' i n := by
  induction n generalizing i with
  | zero => rfl
  | succ n ih => simp [printLoop, bufferReads, ih, List.range']

theorem sendLoop_no_throw (f : Nat → ℚ) (buf : List Nat) (n i : Nat) :
    (sendLoop f buf none n i).2 = false ∧
    socketWrites (sendLoop f buf none n i).1 =
      (List.range' i n).map (fun j => f (buf.getD j 0)) ∧
    bufferReads (sendLoop f buf none n i).1 = List.range' i n := by
  induction n generalizing i with
  | zero => exact ⟨rfl, rfl, rfl⟩
  | succ n ih =>
    obtain ⟨h1, h2, h3⟩ := ih (i + 1)
    simp [sendLoop, socketWrites, bufferReads, h1, h2, h3, List.range']

theorem dmaStore_length (env : TickEnv) (old : List Nat) :
    (dmaStore env old).length = SAMPLE_COUNT + 8 := by
  simp [dmaStore, DataBufferLen]

theorem dmaStore_getD (env : TickEnv) (old : List Nat) (i : Nat) (hi : i < SAMPLE_COUNT) :
    (dmaStore env old).getD i 0 = env.dmaSample i % 65536 := by
  have hi' : i < DataBufferLen := by
    unfold DataBufferLen; omega
  simp [dmaStore, List.getD_eq_getElem?_getD, List.getElem?_map, List.getElem?_range hi', hi]


/-! ## The bipolar decoder `Xadc_RawToVoltageVPVN` -/

/-- C1 (counterexample): the decoder does not scale by `1/2^(N-1)`. With
averaging the raw sample `1` decodes to the binary32 number `65537 / 2^32`
where the rule of the specification gives `1/32768`; without averaging the raw
sample `0x0010` decodes to `1/4096` where the rule gives `1/2048`. -/
theorem Xadc_RawToVoltageVPVN_binary32_not_half_range_scale :
    Xadc_RawToVoltageVPVN_binary32 .XSM_AVG_64_SAMPLES 1 = 65537 / 4294967296 ∧
    spec_RawToVoltageVPVN .XSM_AVG_64_SAMPLES 1 = 1 / 32768 ∧
    Xadc_RawToVoltageVPVN_binary32 .XSM_AVG_64_SAMPLES 1 ≠
      spec_RawToVoltageVPVN .XSM_AVG_64_SAMPLES 1 ∧
    Xadc_RawToVoltageVPVN_binary32 .XSM_AVG_0_SAMPLES 0x0010 = 1 / 4096 ∧
    spec_RawToVoltageVPVN .XSM_AVG_0_SAMPLES 0x0010 = 1 / 2048 ∧
    Xadc_RawToVoltageVPVN_binary32 .XSM_AVG_0_SAMPLES 0x0010 ≠
      spec_RawToVoltageVPVN .XSM_AVG_0_SAMPLES 0x0010 := by
  have h1 : Xadc_RawToVoltageVPVN_binary32 .XSM_AVG_64_SAMPLES 1 = 65537 / 4294967296 := by
    decide!
  have h2 : spec_RawToVoltageVPVN .XSM_AVG_64_SAMPLES 1 = 1 / 32768 := by
    simp [spec_RawToVoltageVPVN, twosSign, twosMagnitude, fieldWidth, validField]
    norm_num
  have h3 : Xadc_RawToVoltageVPVN_binary32 .XSM_AVG_0_SAMPLES 0x0010 = 1 / 4096 := by
    rw [VPVN_binary32_noAveraging_eq _ (by decide)]; norm_num
  have h4 : spec_RawToVoltageVPVN .XSM_AVG_0_SAMPLES 0x0010 = 1 / 2048 := by
    simp [spec_RawToVoltageVPVN, twosSign, twosMagnitude, fieldWidth, validField,
      shiftRight_four]
    norm_num
  refine ⟨h1, h2, ?_, h3, h4, ?_⟩
  · rw [h1, h2]; norm_num
  · rw [h3, h4]; norm_num

/-- C1 (amended): for every 16-bit raw sample whose valid field is not the
most-negative pattern, the binary32 result of the decoder has the sign of the
N-bit two's-complement field and a magnitude of one LSB per `1/2^N` volt.
Without averaging (N = 12, field `raw >> 4`), for samples that are
non-negative or have their low four bits clear, the result is exactly
`sign * magnitude / 2^12`, so the divisor is 4096. With averaging (N = 16,
field the whole sample) the result times the sign lies between
`magnitude / 2^16` and `(magnitude + 1) / 2^16`. In both configurations the
result differs from the rule `sign * magnitude / 2^(N-1)` whenever the field
is not zero. -/
theorem Xadc_RawToVoltageVPVN_binary32_sign_magnitude (m : AveragingMode) (raw : Nat)
    (hraw : raw < 65536) (hmin : validField m raw ≠ 2 ^ (fieldWidth m - 1)) :
    (m = .XSM_AVG_0_SAMPLES → raw < 0x8000 ∨ raw % 16 = 0 →
      Xadc_RawToVoltageVPVN_binary32 m raw =
        twosSign 12 (raw >>> 4) * (twosMagnitude 12 (raw >>> 4) : ℚ) / 2 ^ 12) ∧
    (m ≠ .XSM_AVG_0_SAMPLES →
      (twosMagnitude 16 raw : ℚ) / 2 ^ 16 ≤
        twosSign 16 raw * Xadc_RawToVoltageVPVN_binary32 m raw ∧
      twosSign 16 raw * Xadc_RawToVoltageVPVN_binary32 m raw <
        ((twosMagnitude 16 raw : ℚ) + 1) / 2 ^ 16) ∧
    (validField m raw ≠ 0 →
      Xadc_RawToVoltageVPVN_binary32 m raw ≠ spec_RawToVoltageVPVN m raw) := by
  have havg : m ≠ .XSM_AVG_0_SAMPLES →
      (twosMagnitude 16 raw : ℚ) / 2 ^ 16 ≤
        twosSign 16 raw * Xadc_RawToVoltageVPVN_binary32 m raw ∧
      twosSign 16 raw * Xadc_RawToVoltageVPVN_binary32 m raw <
        ((twosMagnitude 16 raw : ℚ) + 1) / 2 ^ 16 := by
    intro hm
    have hmin1 : raw ≠ 32768 := by
      simpa [validField, fieldWidth, hm] using hmin
    rw [VPVN_binary32_averaging_eq m hm raw hraw, if_neg hmin1]
    unfold twosSign twosMagnitude
    by_cases h3 : 32768 ≤ raw
    · have h5 : 2 ^ (16 - 1) ≤ raw := by norm_num; omega
      have e : (2 : Nat) ^ 16 - raw = 65536 - raw := by norm_num
      rw [if_pos h3, if_pos h5, if_pos h5, e, neg_one_mul, neg_neg]
      exact VPVN_binary32_magnitude_bounds (65536 - raw) (by omega)
    · have h5 : ¬ 2 ^ (16 - 1) ≤ raw := by norm_num; omega
      rw [if_neg h3, if_neg h5, if_neg h5, one_mul]
      exact VPVN_binary32_magnitude_bounds raw (by omega)
  refine ⟨?_, havg, ?_⟩
  · intro hm hlow
    subst hm
    have hmin1 : raw / 16 ≠ 2048 := by
      simpa [validField, fieldWidth, shiftRight_four] using hmin
    rw [VPVN_binary32_noAveraging_eq raw hraw, if_neg hmin1, shiftRight_four]
    unfold twosSign twosMagnitude
    by_cases h3 : 32768 ≤ raw
    · have h5 : 2 ^ (12 - 1) ≤ raw / 16 := by norm_num; omega
      have h6 : raw % 16 = 0 := by omega
      have h7 : (65536 - raw) / 16 = 2 ^ 12 - raw / 16 := by norm_num; omega
      rw [if_pos h3, if_pos h5, if_pos h5, h7]
      norm_num
    · have h5 : ¬ 2 ^ (12 - 1) ≤ raw / 16 := by norm_num; omega
      rw [if_neg h3, if_neg h5, if_neg h5]
      norm_num
  · intro hne
    by_cases hm : m = .XSM_AVG_0_SAMPLES
    · subst hm
      have hmin1 : raw / 16 ≠ 2048 := by
        simpa [validField, fieldWidth, shiftRight_four] using hmin
      have hne1 : raw / 16 ≠ 0 := by
        simpa [validField, shiftRight_four] using hne
      rw [VPVN_binary32_noAveraging_eq raw hraw, if_neg hmin1]
      simp only [spec_RawToVoltageVPVN, validField, fieldWidth, if_true, shiftRight_four]
      unfold twosSign twosMagnitude
      by_cases h3 : 32768 ≤ raw
      · have h5 : 2 ^ (12 - 1) ≤ raw / 16 := by norm_num; omega
        rw [if_pos h3, if_pos h5, if_pos h5]
        have hA : (0 : ℚ) ≤ (((65536 - raw) / 16 : Nat) : ℚ) := Nat.cast_nonneg _
        have hB : (((65536 - raw) / 16 : Nat) : ℚ) ≤ ((2 ^ 12 - raw / 16 : Nat) : ℚ) := by
          exact_mod_cast (by norm_num; omega : (65536 - raw) / 16 ≤ 2 ^ 12 - raw / 16)
        have hC : (1 : ℚ) ≤ ((2 ^ 12 - raw / 16 : Nat) : ℚ) := by
          exact_mod_cast (by norm_num; omega : 1 ≤ 2 ^ 12 - raw / 16)
        intro heq
        have e1 : -(((65536 - raw) / 16 : Nat) : ℚ) / 4096 * 4096 =
            -1 * ((2 ^ 12 - raw / 16 : Nat) : ℚ) / 2 ^ (12 - 1) * 4096 := by rw [heq]
        norm_num at e1
        linarith
      · have h5 : ¬ 2 ^ (12 - 1) ≤ raw / 16 := by norm_num; omega
        rw [if_neg h3, if_neg h5, if_neg h5]
        have hC : (1 : ℚ) ≤ ((raw / 16 : Nat) : ℚ) := by
          exact_mod_cast (by omega : 1 ≤ raw / 16)
        intro heq
        have e1 : ((raw / 16 : Nat) : ℚ) / 4096 * 4096 =
            1 * ((raw / 16 : Nat) : ℚ) / 2 ^ (12 - 1) * 4096 := by rw [heq]
        norm_num at e1
        linarith
    · have hmin1 : raw ≠ 32768 := by
        simpa [validField, fieldWidth, hm] using hmin
      have hne1 : raw ≠ 0 := by
        simpa [validField, hm] using hne
      have hb := havg hm
      intro heq
      rw [heq] at hb
      simp only [spec_RawToVoltageVPVN, validField, fieldWidth, if_neg hm] at hb
      unfold twosSign twosMagnitude at hb
      by_cases h3 : 2 ^ (16 - 1) ≤ raw
      · have hC : (1 : ℚ) ≤ ((65536 - raw : Nat) : ℚ) := by
          exact_mod_cast (by omega : 1 ≤ 65536 - raw)
        rw [if_pos h3, if_pos h3] at hb
        have hb2 := hb.2
        norm_num at hb2
        linarith
      · have hC : (1 : ℚ) ≤ (raw : ℚ) := by
          exact_mod_cast (by omega : 1 ≤ raw)
        rw [if_neg h3, if_neg h3] at hb
        have hb2 := hb.2
        norm_num at hb2
        linarith

/-- C1 (witness): the amended statement at the negative sample `0xFFF0`
without averaging, which decodes to `-1/4096`, and at the largest positive
sample `0x7FFF` with averaging, which decodes into the last interval below
`1/2`. -/
theorem Xadc_RawToVoltageVPVN_binary32_sign_magnitude_witness :
    (65520 < 65536 ∧
      validField .XSM_AVG_0_SAMPLES 65520 ≠ 2 ^ (fieldWidth .XSM_AVG_0_SAMPLES - 1) ∧
      Xadc_RawToVoltageVPVN_binary32 .XSM_AVG_0_SAMPLES 65520 =
        twosSign 12 (65520 >>> 4) * (twosMagnitude 12 (65520 >>> 4) : ℚ) / 2 ^ 12) ∧
    (32767 < 65536 ∧
      validField .XSM_AVG_64_SAMPLES 32767 ≠ 2 ^ (fieldWidth .XSM_AVG_64_SAMPLES - 1) ∧
      (twosMagnitude 16 32767 : ℚ) / 2 ^ 16 ≤
        twosSign 16 32767 * Xadc_RawToVoltageVPVN_binary32 .XSM_AVG_64_SAMPLES 32767 ∧
      twosSign 16 32767 * Xadc_RawToVoltageVPVN_binary32 .XSM_AVG_64_SAMPLES 32767 <
        ((twosMagnitude 16 32767 : ℚ) + 1) / 2 ^ 16 ∧
      Xadc_RawToVoltageVPVN_binary32 .XSM_AVG_64_SAMPLES 32767 ≠
        spec_RawToVoltageVPVN .XSM_AVG_64_SAMPLES 32767) :=
  ⟨⟨by decide, by decide,
    (Xadc_RawToVoltageVPVN_binary32_sign_magnitude .XSM_AVG_0_SAMPLES 65520
      (by decide) (by decide)).1 rfl (Or.inr (by decide))⟩,
   ⟨by decide, by decide,
    ((Xadc_RawToVoltageVPVN_binary32_sign_magnitude .XSM_AVG_64_SAMPLES 32767
      (by decide) (by decide)).2.1 (by decide)).1,
    ((Xadc_RawToVoltageVPVN_binary32_sign_magnitude .XSM_AVG_64_SAMPLES 32767
      (by decide) (by decide)).2.1 (by decide)).2,
    (Xadc_RawToVoltageVPVN_binary32_sign_magnitude .XSM_AVG_64_SAMPLES 32767
      (by decide) (by decide)).2.2 (by decide)⟩⟩

/-- C5 (evaluation at the failing input): the 12-bit field `0x001` placed in
the top twelve bits of a raw sample decodes to `1/4096` without averaging and
to `16/65535` with averaging; the two voltages differ. -/
theorem Xadc_RawToVoltageVPVN_modes_disagree :
    Xadc_RawToVoltageVPVN .XSM_AVG_0_SAMPLES (0x001 <<< 4) = 1 / 4096 ∧
    Xadc_RawToVoltageVPVN .XSM_AVG_64_SAMPLES (0x001 <<< 4) = 16 / 65535 ∧
    Xadc_RawToVoltageVPVN .XSM_AVG_0_SAMPLES (0x001 <<< 4) ≠
      Xadc_RawToVoltageVPVN .XSM_AVG_64_SAMPLES (0x001 <<< 4) := by
  have h : (0x001 <<< 4 : Nat) = 16 := by decide
  rw [h, VPVN_noAveraging_eq 16 (by decide), VPVN_averaging_eq _ (by decide) 16 (by decide)]
  norm_num

/-- C6 (evaluation at the failing input): without averaging the raw samples
`0xFFF0` and `0xFFF1` have the same top twelve bits, yet the first decodes to
`-1/4096` and the second to `0`. -/
theorem Xadc_RawToVoltageVPVN_low_bits_change_result :
    (0xFFF0 >>> 4 : Nat) = 0xFFF1 >>> 4 ∧
    Xadc_RawToVoltageVPVN .XSM_AVG_0_SAMPLES 0xFFF0 = -1 / 4096 ∧
    Xadc_RawToVoltageVPVN .XSM_AVG_0_SAMPLES 0xFFF1 = 0 ∧
    Xadc_RawToVoltageVPVN .XSM_AVG_0_SAMPLES 0xFFF0 ≠
      Xadc_RawToVoltageVPVN .XSM_AVG_0_SAMPLES 0xFFF1 := by
  have h0 : Xadc_RawToVoltageVPVN .XSM_AVG_0_SAMPLES 0xFFF0 = -1 / 4096 := by
    rw [VPVN_noAveraging_eq _ (by decide)]; norm_num
  have h1 : Xadc_RawToVoltageVPVN .XSM_AVG_0_SAMPLES 0xFFF1 = 0 := by
    rw [VPVN_noAveraging_eq _ (by decide)]; norm_num
  refine ⟨by decide, h0, h1, ?_⟩
  rw [h0, h1]; norm_num

/-! ## The unipolar decoder `Xadc_RawToVoltageAUX1` -/

/-- C7 (counterexample): in binary32 the decoder without averaging does not
return exactly `3.32 * (raw >> 4) / 4095`. The full-scale sample `0xFFFF`
decodes to `13925089 / 4194304`, the binary32 number next to `3.32`, which is
neither `3.32 * 4095 / 4095` nor `3.32` and lies below `3.32`. -/
theorem Xadc_RawToVoltageAUX1_binary32_not_exact :
    Xadc_RawToVoltageAUX1_binary32 .XSM_AVG_0_SAMPLES 0xFFFF = 13925089 / 4194304 ∧
    (3.32 : ℚ) * ((0xFFFF >>> 4 : Nat) : ℚ) / 4095 = 83 / 25 ∧
    Xadc_RawToVoltageAUX1_binary32 .XSM_AVG_0_SAMPLES 0xFFFF ≠
      (3.32 : ℚ) * ((0xFFFF >>> 4 : Nat) : ℚ) / 4095 ∧
    Xadc_RawToVoltageAUX1_binary32 .XSM_AVG_0_SAMPLES 0xFFFF ≠ (3.32 : ℚ) ∧
    Xadc_RawToVoltageAUX1_binary32 .XSM_AVG_0_SAMPLES 0xFFFF < (3.32 : ℚ) := by
  have h1 : Xadc_RawToVoltageAUX1_binary32 .XSM_AVG_0_SAMPLES 0xFFFF = 13925089 / 4194304 := by
    rw [AUX1_binary32_noAveraging_eq]
    exact AUX1_binary32_fullScale
  have h2 : (3.32 : ℚ) * ((0xFFFF >>> 4 : Nat) : ℚ) / 4095 = 83 / 25 := by
    rw [shiftRight_four]; norm_num
  refine ⟨h1, h2, ?_, ?_, ?_⟩
  · rw [h1, h2]; norm_num
  · rw [h1]; norm_num
  · rw [h1]; norm_num

/-- C7 (amended): without averaging, every 16-bit raw sample decodes to the
binary32 product of the binary32 scale `13925089 / 4194304` (the binary32
number next to `3.32`) and the binary32 quotient `(raw >> 4) / 4095`. The
result is within `2^-21` of `3.32 * (raw >> 4) / 4095`, is the same for any
other sample with the same top twelve bits, lies between `0` and the binary32
scale, which is below `3.32`, is `0` when the sample is below `0x0010` and is
the binary32 scale when the sample is `0xFFF0` or more. -/
theorem Xadc_RawToVoltageAUX1_binary32_noAveraging (raw : Nat) (hraw : raw < 65536) :
    Xadc_RawToVoltageAUX1_binary32 .XSM_AVG_0_SAMPLES raw =
      roundBinary32 ((13925089 / 4194304 : ℚ) *
        roundBinary32 (((raw >>> 4 : Nat) : ℚ) / (4095 : ℚ))) ∧
    |Xadc_RawToVoltageAUX1_binary32 .XSM_AVG_0_SAMPLES raw -
      (3.32 : ℚ) * ((raw >>> 4 : Nat) : ℚ) / 4095| ≤ 1 / 2 ^ 21 ∧
    (∀ b : Nat, b < 65536 → raw >>> 4 = b >>> 4 →
      Xadc_RawToVoltageAUX1_binary32 .XSM_AVG_0_SAMPLES raw =
        Xadc_RawToVoltageAUX1_binary32 .XSM_AVG_0_SAMPLES b) ∧
    0 ≤ Xadc_RawToVoltageAUX1_binary32 .XSM_AVG_0_SAMPLES raw ∧
    Xadc_RawToVoltageAUX1_binary32 .XSM_AVG_0_SAMPLES raw ≤ 13925089 / 4194304 ∧
    (13925089 / 4194304 : ℚ) < (3.32 : ℚ) ∧
    (raw < 0x0010 → Xadc_RawToVoltageAUX1_binary32 .XSM_AVG_0_SAMPLES raw = 0) ∧
    (0xFFF0 ≤ raw →
      Xadc_RawToVoltageAUX1_binary32 .XSM_AVG_0_SAMPLES raw = 13925089 / 4194304) := by
  have hfull : raw / 16 = 4095 →
      Xadc_RawToVoltageAUX1_binary32 .XSM_AVG_0_SAMPLES raw = 13925089 / 4194304 := by
    intro h
    rw [AUX1_binary32_noAveraging_eq, h]
    exact AUX1_binary32_fullScale
  refine ⟨?_, ?_, ?_, ?_, ?_, by norm_num, ?_, ?_⟩
  · rw [AUX1_binary32_noAveraging_eq, shiftRight_four]
  · rw [shiftRight_four]
    by_cases h : raw / 16 = 4095
    · rw [hfull h, h]; norm_num [abs_le]
    · rw [AUX1_binary32_noAveraging_eq]
      exact (AUX1_binary32_bounds (raw / 16) (by omega)).2.2
  · intro b _ hab
    rw [shiftRight_four, shiftRight_four] at hab
    rw [AUX1_binary32_noAveraging_eq, AUX1_binary32_noAveraging_eq, hab]
  · by_cases h : raw / 16 = 4095
    · rw [hfull h]; norm_num
    · rw [AUX1_binary32_noAveraging_eq]
      exact (AUX1_binary32_bounds (raw / 16) (by omega)).1
  · by_cases h : raw / 16 = 4095
    · rw [hfull h]
    · rw [AUX1_binary32_noAveraging_eq]
      exact le_of_lt (AUX1_binary32_bounds (raw / 16) (by omega)).2.1
  · intro hlt
    rw [AUX1_binary32_noAveraging_eq, (by omega : raw / 16 = 0)]
    simp [roundBinary32, roundNearestEven_zero]
  · intro hge
    exact hfull (by omega)

/-- C7 (witness): the amended statement at the raw sample `0xFFF7`, which
decodes to the binary32 scale. -/
theorem Xadc_RawToVoltageAUX1_binary32_noAveraging_witness :
    65527 < 65536 ∧
    Xadc_RawToVoltageAUX1_binary32 .XSM_AVG_0_SAMPLES 65527 = 13925089 / 4194304 :=
  ⟨by decide,
    (Xadc_RawToVoltageAUX1_binary32_noAveraging 65527 (by decide)).2.2.2.2.2.2.2 (by decide)⟩

/-! ## Channel switching -/

/-- C8 (counterexample): in a pass where button 1 is pressed and
`XSysMon_SetSingleChParams` fails, starting from `VAUX1` with its decoder
bound, the task ends with `ActiveXADCInput` already set to `VPVN`: the selector
state is not the one before the attempt. -/
theorem switch_failure_changes_selector :
    switchFailsEnv.BTN1 = true ∧ switchFailsEnv.setSingleChStatus ≠ XST_SUCCESS ∧
    XADC_tick .XSM_AVG_64_SAMPLES switchFailsEnv startGlobals =
      ([.XGpioPs_Read, .XSysMon_SetSingleChParams .VPVN true,
        .cerr .setSingleChParamsVPVNFailed, .vTaskDelete],
        .deleted { startGlobals with ActiveXADCInput := .VPVN }) ∧
    selector { startGlobals with ActiveXADCInput := .VPVN } ≠ selector startGlobals :=
  ⟨rfl, by decide, rfl, by decide⟩

/-- C8 (amended): when a button-1 channel switch is attempted and
`XSysMon_SetSingleChParams` reports failure, the decode function bound to
`Xadc_RawToVoltageFunc` is the one bound before, `ActiveXADCInput` has already
been toggled to the other input, and the task ends with `vTaskDelete`; when the
call succeeds the pass continues with the toggled input and the decoder of that
input bound. -/
theorem handleBTN1_commits_decoder_on_success_only (env : TickEnv) (g : Globals) :
    (env.setSingleChStatus ≠ XST_SUCCESS →
      ∃ t g', handleBTN1 env g = (t ++ [.vTaskDelete], .deleted g') ∧
        g'.Xadc_RawToVoltageFunc = g.Xadc_RawToVoltageFunc ∧
        g'.ActiveXADCInput = (if g.ActiveXADCInput = .VAUX1 then .VPVN else .VAUX1)) ∧
    (env.setSingleChStatus = XST_SUCCESS →
      ∃ t g', handleBTN1 env g = (t, .next g') ∧
        g'.ActiveXADCInput = (if g.ActiveXADCInput = .VAUX1 then .VPVN else .VAUX1) ∧
        g'.Xadc_RawToVoltageFunc = (if g.ActiveXADCInput = .VAUX1 then .VPVN else .AUX1)) := by
  constructor
  · intro h
    cases hg : g.ActiveXADCInput <;>
      simp [handleBTN1, ActivateXADCInput, hg, h, XST_FAILURE] <;>
      exact ⟨[_, _], _, ⟨rfl, rfl⟩, rfl, rfl⟩
  · intro h
    cases hg : g.ActiveXADCInput <;>
      simp [handleBTN1, ActivateXADCInput, hg, h, XST_FAILURE, XST_SUCCESS] <;>
      exact ⟨_, _, ⟨rfl, rfl⟩, rfl, rfl⟩

/-- C8 (witness): the failing branch of the amended statement at the pass
`switchFailsEnv` from `startGlobals`. -/
theorem handleBTN1_commits_decoder_on_success_only_witness :
    switchFailsEnv.setSingleChStatus ≠ XST_SUCCESS ∧
    ∃ t g', handleBTN1 switchFailsEnv startGlobals = (t ++ [.vTaskDelete], .deleted g') ∧
      g'.Xadc_RawToVoltageFunc = startGlobals.Xadc_RawToVoltageFunc ∧
      g'.ActiveXADCInput =
        (if startGlobals.ActiveXADCInput = .VAUX1 then .VPVN else .VAUX1) :=
  ⟨by decide,
    (handleBTN1_commits_decoder_on_success_only switchFailsEnv startGlobals).1 (by decide)⟩

/-! ## Capture and streaming -/

/-- C9: in a pass where button 0 is pressed and `XAxiDma_SimpleTransfer`
fails, `ReceiveData` returns `XST_FAILURE` after the cache flush, the transfer
call and the error message only; the pass ends at `vTaskDelete` with the
globals unchanged, its trace holds no write to pin 54, no cache invalidation,
no read of `DataBuffer`, no decoded value, no opening of and no write to the
socket, and the loop runs no further pass. -/
theorem transfer_failure_ends_task (m : AveragingMode) (env : TickEnv) (g : Globals)
    (hb : env.BTN0 = true) (hf : env.simpleTransferStatus ≠ XST_SUCCESS) :
    ReceiveData env g =
      ([.Xil_DCacheFlushRange, .XAxiDma_SimpleTransfer (SAMPLE_COUNT * 2),
        .cerr .simpleTransferFailed], some (XST_FAILURE, g)) ∧
    XADC_tick m env g =
      ([.XGpioPs_Read, .Xil_DCacheFlushRange, .XAxiDma_SimpleTransfer (SAMPLE_COUNT * 2),
        .cerr .simpleTransferFailed, .vTaskDelete], .deleted g) ∧
    (∀ e ∈ (XADC_tick m env g).1,
      (∀ d, e ≠ .XGpioPs_WritePin 54 d) ∧ e ≠ .Xil_DCacheInvalidateRange ∧
      (∀ i, e ≠ .readDataBuffer i) ∧ (∀ v, e ≠ .coutVoltage v) ∧
      (∀ b, e ≠ .socketOpen b) ∧ (∀ v, e ≠ .socketWrite v)) ∧
    (∀ envs : List TickEnv, XADC_loop m (env :: envs) g = XADC_tick m env g) := by
  have hR : ReceiveData env g =
      ([.Xil_DCacheFlushRange, .XAxiDma_SimpleTransfer (SAMPLE_COUNT * 2),
        .cerr .simpleTransferFailed], some (XST_FAILURE, g)) := by
    unfold ReceiveData
    rw [if_pos hf]
  have hT : XADC_tick m env g =
      ([.XGpioPs_Read, .Xil_DCacheFlushRange, .XAxiDma_SimpleTransfer (SAMPLE_COUNT * 2),
        .cerr .simpleTransferFailed, .vTaskDelete], .deleted g) := by
    simp [XADC_tick, hb, handleBTN0, hR]
  refine ⟨hR, hT, ?_, ?_⟩
  · intro e he
    rw [hT] at he
    simp only [List.mem_cons, List.mem_singleton, List.not_mem_nil, or_false] at he
    rcases he with h | h | h | h | h <;> subst h <;> simp
  · intro envs
    simp [XADC_loop, hT]

/-- C9 (witness): the pass `transferFailsEnv` from `startGlobals`. -/
theorem transfer_failure_ends_task_witness :
    transferFailsEnv.BTN0 = true ∧ transferFailsEnv.simpleTransferStatus ≠ XST_SUCCESS ∧
    XADC_tick .XSM_AVG_64_SAMPLES transferFailsEnv startGlobals =
      ([.XGpioPs_Read, .Xil_DCacheFlushRange, .XAxiDma_SimpleTransfer (SAMPLE_COUNT * 2),
        .cerr .simpleTransferFailed, .vTaskDelete], .deleted startGlobals) :=
  ⟨rfl, by decide,
    (transfer_failure_ends_task .XSM_AVG_64_SAMPLES transferFailsEnv startGlobals rfl
      (by decide)).2.1⟩

/-- C10: when the transfer is programmed, the DMA engine finishes, and neither
the opening of the socket nor a write throws, the handling of button 0 ends the
pass normally with a 108-element `DataBuffer` whose first `SAMPLE_COUNT`
elements are the stored samples; the values written to the socket are, in
order, the bound decoder applied to `DataBuffer[i]` for `i = 0..99`, exactly
100 of them; every index of `DataBuffer` read is below `SAMPLE_COUNT`; and when
the bipolar decoder is bound, averaging is enabled and all 100 samples are
`0x8000`, the series is 100 copies of `-1/2`. -/
theorem capture_streams_sample_count_values (m : AveragingMode) (env : TickEnv)
    (g : Globals) (f : Nat → ℚ) (n : Nat)
    (hs : env.simpleTransferStatus = XST_SUCCESS) (hp : env.busyPolls = some n)
    (ho : env.socketOpenThrows = false) (hw : env.socketWriteThrowsAt = none)
    (hf : g.Xadc_RawToVoltageFunc.target m = some f) :
    ∃ (t : List Effect) (buf : List Nat),
      handleBTN0 m env g = (t, .next { g with DataBuffer := buf }) ∧
      buf.length = SAMPLE_COUNT + 8 ∧
      (∀ i, i < SAMPLE_COUNT → buf.getD i 0 = env.dmaSample i % 65536) ∧
      socketWrites t = (List.range SAMPLE_COUNT).map (fun i => f (buf.getD i 0)) ∧
      (socketWrites t).length = 100 ∧
      (∀ i ∈ bufferReads t, i < SAMPLE_COUNT) ∧
      (g.Xadc_RawToVoltageFunc = .VPVN → m ≠ .XSM_AVG_0_SAMPLES →
        (∀ i, i < SAMPLE_COUNT → buf.getD i 0 = 0x8000) →
        socketWrites t = List.replicate 100 (-1 / 2)) := by
  obtain ⟨h1, h2, h3⟩ := sendLoop_no_throw f (dmaStore env g.DataBuffer) SAMPLE_COUNT 0
  have hW : ∀ t, t = ([Effect.Xil_DCacheFlushRange, .XAxiDma_SimpleTransfer (SAMPLE_COUNT * 2),
        .XGpioPs_WritePin 54 1, .XGpioPs_WritePin 54 0] ++ busyWait n ++
        [.Xil_DCacheInvalidateRange] ++ [.cout .dataHeader] ++
        printLoop f (dmaStore env g.DataBuffer) 8 0 ++
        ([.socketOpen true, .cout .sendingData] ++
          (sendLoop f (dmaStore env g.DataBuffer) none SAMPLE_COUNT 0).1 ++
          [.cout .sent, .socketClose])) →
      socketWrites t =
        (List.range SAMPLE_COUNT).map (fun i => f ((dmaStore env g.DataBuffer).getD i 0)) ∧
      bufferReads t = List.range' 0 8 ++ List.range' 0 SAMPLE_COUNT := by
    intro t ht
    subst ht
    constructor
    · simp only [socketWrites_append, socketWrites_busyWait, socketWrites_printLoop, h2]
      simp [socketWrites, List.range_eq_range']
    · simp only [bufferReads_append, bufferReads_busyWait, bufferReads_printLoop, h3]
      simp [bufferReads]
  obtain ⟨hw1, hw2⟩ := hW _ rfl
  refine ⟨_, dmaStore env g.DataBuffer, ?_, dmaStore_length env _, dmaStore_getD env _,
    hw1, ?_, ?_, ?_⟩
  · simp [handleBTN0, ReceiveData, hs, hp, hf, XST_FAILURE, XST_SUCCESS, sendData, ho, hw, h1]
  · rw [hw1]; simp [SAMPLE_COUNT]
  · intro i hi
    rw [hw2] at hi
    simp only [List.mem_append, List.mem_range'_1] at hi
    unfold SAMPLE_COUNT at *
    omega
  · intro hv hm hall
    have hfv : f = Xadc_RawToVoltageVPVN m := by
      rw [hv] at hf
      simpa [FuncPtr.target] using hf.symm
    rw [hw1, hfv]
    apply List.ext_getElem
    · simp [SAMPLE_COUNT]
    · intro i hi1 hi2
      have hi : i < SAMPLE_COUNT := by simpa using hi1
      simp only [List.getElem_map, List.getElem_range, List.getElem_replicate]
      rw [hall i hi, VPVN_averaging_eq m hm _ (by decide)]
      norm_num

/-- C10 (witness): the pass `captureEnv`, in which every stored sample is
`0x8000`, from `bipolarGlobals` with averaging over 64 samples: the series
handed to the socket is 100 copies of `-1/2`. -/
theorem capture_streams_sample_count_values_witness :
    captureEnv.simpleTransferStatus = XST_SUCCESS ∧ captureEnv.busyPolls = some 1 ∧
    captureEnv.socketOpenThrows = false ∧ captureEnv.socketWriteThrowsAt = none ∧
    bipolarGlobals.Xadc_RawToVoltageFunc.target .XSM_AVG_64_SAMPLES =
      some (Xadc_RawToVoltageVPVN .XSM_AVG_64_SAMPLES) ∧
    ∃ (t : List Effect) (buf : List Nat),
      handleBTN0 .XSM_AVG_64_SAMPLES captureEnv bipolarGlobals =
        (t, .next { bipolarGlobals with DataBuffer := buf }) ∧
      socketWrites t = List.replicate 100 (-1 / 2) := by
  refine ⟨rfl, rfl, rfl, rfl, rfl, ?_⟩
  obtain ⟨t, buf, h1, _, h3, _, _, _, h7⟩ :=
    capture_streams_sample_count_values .XSM_AVG_64_SAMPLES captureEnv bipolarGlobals
      (Xadc_RawToVoltageVPVN .XSM_AVG_64_SAMPLES) 1 rfl rfl rfl rfl rfl
  exact ⟨t, buf, h1, h7 rfl (by decide) (fun i hi => by rw [h3 i hi]; rfl)⟩

/-! ## Calibration coefficient decoders -/

theorem or_F000_eq (n : Nat) (hn : n < 4096) : n ||| 0xF000 = n + 61440 := by
  have h := Nat.mul_add_lt_is_or (show n < 2 ^ 12 by norm_num; exact hn) 15
  rw [Nat.or_comm]
  norm_num at h
  omega

theorem bit11_set_iff (n : Nat) (hn : n < 4096) : n &&& 0x800 ≠ 0 ↔ 2048 ≤ n := by
  have h := land_two_pow n 11
  norm_num at h
  rw [h]
  omega

theorem Convert12BitToSigned16Bit_eq (n : Nat) (hn : n < 4096) :
    Convert12BitToSigned16Bit n = if n < 2048 then (n : Int) else (n : Int) - 4096 := by
  unfold Convert12BitToSigned16Bit toInt16
  by_cases h : 2048 ≤ n
  · have hb : n &&& 0x800 ≠ 0 := (bit11_set_iff n hn).2 h
    simp only [if_pos hb, or_F000_eq n hn]
    have h1 : ¬ (n + 61440) % 65536 < 32768 := by omega
    have h2 : ¬ n < 2048 := by omega
    rw [if_neg h1, if_neg h2]
    omega
  · have hb : ¬ (n &&& 0x800 ≠ 0) := fun hb => h ((bit11_set_iff n hn).1 hb)
    simp only [if_neg hb]
    have h1 : n % 65536 < 32768 := by omega
    have h2 : n < 2048 := by omega
    rw [if_pos h1, if_pos h2]
    omega

/-- C12: for every 12-bit field value `n`, `Convert12BitToSigned16Bit n` is
`n` when `n < 2048` and `n - 4096` when `n ≥ 2048`; the result lies between
`-2048` and `2047`, and two 12-bit values with the same result are equal. -/
theorem Convert12BitToSigned16Bit_sign_extends (n : Nat) (hn : n ≤ 0xFFF) :
    (n < 2048 → Convert12BitToSigned16Bit n = (n : Int)) ∧
    (2048 ≤ n → Convert12BitToSigned16Bit n = (n : Int) - 4096) ∧
    -2048 ≤ Convert12BitToSigned16Bit n ∧ Convert12BitToSigned16Bit n ≤ 2047 ∧
    (∀ k : Nat, k ≤ 0xFFF →
      Convert12BitToSigned16Bit k = Convert12BitToSigned16Bit n → k = n) := by
  have hn' : n < 4096 := by omega
  rw [Convert12BitToSigned16Bit_eq n hn']
  refine ⟨?_, ?_, ?_, ?_, ?_⟩
  · intro h; rw [if_pos h]
  · intro h; rw [if_neg (by omega)]
  · split_ifs <;> omega
  · split_ifs <;> omega
  · intro k hk
    rw [Convert12BitToSigned16Bit_eq k (by omega)]
    split_ifs <;> omega

/-- C12 (witness): the field `0xFFF` converts to `4095 - 4096`. -/
theorem Convert12BitToSigned16Bit_sign_extends_witness :
    4095 ≤ 0xFFF ∧ Convert12BitToSigned16Bit 4095 = ((4095 : Nat) : Int) - 4096 :=
  ⟨by decide, (Convert12BitToSigned16Bit_sign_extends 4095 (by decide)).2.1 (by decide)⟩

theorem bit6_iff (num : Nat) : num.testBit 6 = true ↔ num / 64 % 2 = 1 := by
  rw [Nat.testBit_to_div_mod]; simp

/-- The 64 magnitudes of the gain coefficient: the binary32 value of
`k * 0.1` is unchanged in size by the multiplication with `-1`, is at most
`6606029 / 1048576` and is within `2^-22` of `k / 10`. -/
theorem gain_binary32_table : ∀ k : Nat, k < 64 →
    roundBinary32 (roundBinary32 (roundBinary64 ((k : ℚ) * roundBinary64 0.1)) * (-1)) =
      -roundBinary32 (roundBinary64 ((k : ℚ) * roundBinary64 0.1)) ∧
    0 ≤ roundBinary32 (roundBinary64 ((k : ℚ) * roundBinary64 0.1)) ∧
    roundBinary32 (roundBinary64 ((k : ℚ) * roundBinary64 0.1)) ≤ 6606029 / 1048576 ∧
    |roundBinary32 (roundBinary64 ((k : ℚ) * roundBinary64 0.1)) - (k : ℚ) / 10| ≤
      1 / 2 ^ 22 := by
  decide!

theorem ConvertRawGainCoefToPercents_eq (num : Nat) :
    ConvertRawGainCoefToPercents num =
      if num / 64 % 2 = 0 then
        -roundBinary32 (roundBinary64 (((num % 64 : Nat) : ℚ) * roundBinary64 0.1))
      else roundBinary32 (roundBinary64 (((num % 64 : Nat) : ℚ) * roundBinary64 0.1)) := by
  have h1 : num &&& 0x3F = num % 64 := by
    have := Nat.and_pow_two_sub_one_eq_mod num 6
    simpa using this
  have h2 : num &&& 0x40 = (num / 64 % 2) * 64 := by
    have h := land_two_pow num 6
    norm_num at h
    exact h
  unfold ConvertRawGainCoefToPercents
  simp only [h1, h2]
  by_cases h : num / 64 % 2 = 0
  · rw [if_pos (by omega), if_pos h]
    exact (gain_binary32_table (num % 64) (Nat.mod_lt _ (by norm_num))).1
  · rw [if_neg (by omega), if_neg h]

/-- C13 (counterexample): in binary32 the result is not exactly
`(num & 0x3F) / 10` and can exceed `6.3`. The value `0x7F` converts to
`6606029 / 1048576`, which is above `6.3`; the value `0x3F` converts to its
negative, which is below `-6.3`. -/
theorem ConvertRawGainCoefToPercents_exceeds_bound :
    ConvertRawGainCoefToPercents 0x7F = 6606029 / 1048576 ∧
    (6.3 : ℚ) < ConvertRawGainCoefToPercents 0x7F ∧
    ¬ |ConvertRawGainCoefToPercents 0x7F| ≤ (6.3 : ℚ) ∧
    ConvertRawGainCoefToPercents 0x7F ≠ ((0x7F &&& 0x3F : Nat) : ℚ) / 10 ∧
    ConvertRawGainCoefToPercents 0x3F = -(6606029 / 1048576) ∧
    ConvertRawGainCoefToPercents 0x3F < -(6.3 : ℚ) ∧
    ConvertRawGainCoefToPercents 0x3F ≠ -((0x3F &&& 0x3F : Nat) : ℚ) / 10 := by
  decide!

/-- C13 (amended): for every 16-bit value `num`, `ConvertRawGainCoefToPercents
num` is the binary32 value of the binary64 product `(num & 0x3F) * 0.1` when
bit 6 of `num` is set and the negative of that value when it is clear, in both
cases within `2^-22` of `(num & 0x3F) / 10` with that sign; the result is the
same for any value with the same low seven bits, and its absolute value is at
most `6606029 / 1048576`, the binary32 number next above `6.3`. -/
theorem ConvertRawGainCoefToPercents_binary32_sign_magnitude (num : Nat)
    (_hnum : num < 65536) :
    (num.testBit 6 = true →
      ConvertRawGainCoefToPercents num =
        roundBinary32 (roundBinary64 (((num &&& 0x3F : Nat) : ℚ) * roundBinary64 0.1)) ∧
      |ConvertRawGainCoefToPercents num - ((num &&& 0x3F : Nat) : ℚ) / 10| ≤ 1 / 2 ^ 22) ∧
    (num.testBit 6 = false →
      ConvertRawGainCoefToPercents num =
        -roundBinary32 (roundBinary64 (((num &&& 0x3F : Nat) : ℚ) * roundBinary64 0.1)) ∧
      |ConvertRawGainCoefToPercents num - -((num &&& 0x3F : Nat) : ℚ) / 10| ≤ 1 / 2 ^ 22) ∧
    (∀ k : Nat, k < 65536 → k &&& 0x7F = num &&& 0x7F →
      ConvertRawGainCoefToPercents k = ConvertRawGainCoefToPercents num) ∧
    |ConvertRawGainCoefToPercents num| ≤ 6606029 / 1048576 ∧
    (6.3 : ℚ) < 6606029 / 1048576 ∧ (6606029 / 1048576 : ℚ) < 6.3 + 1 / 2 ^ 22 := by
  have h1 : ∀ x : Nat, x &&& 0x3F = x % 64 := by
    intro x
    have := Nat.and_pow_two_sub_one_eq_mod x 6
    simpa using this
  have h7 : ∀ x : Nat, x &&& 0x7F = x % 128 := by
    intro x
    have := Nat.and_pow_two_sub_one_eq_mod x 7
    simpa using this
  have ht := gain_binary32_table (num % 64) (Nat.mod_lt _ (by norm_num))
  refine ⟨?_, ?_, ?_, ?_, by norm_num, by norm_num⟩
  · intro hb
    rw [ConvertRawGainCoefToPercents_eq, h1, if_neg (by have := (bit6_iff num).1 hb; omega)]
    exact ⟨rfl, ht.2.2.2⟩
  · intro hb
    have hb' : ¬ num / 64 % 2 = 1 := fun h => by
      rw [(bit6_iff num).2 h] at hb; exact Bool.noConfusion hb
    rw [ConvertRawGainCoefToPercents_eq, h1, if_pos (by omega)]
    refine ⟨rfl, ?_⟩
    have e : -roundBinary32 (roundBinary64 (((num % 64 : Nat) : ℚ) * roundBinary64 0.1)) -
        -((num % 64 : Nat) : ℚ) / 10 =
        -(roundBinary32 (roundBinary64 (((num % 64 : Nat) : ℚ) * roundBinary64 0.1)) -
          ((num % 64 : Nat) : ℚ) / 10) := by ring
    rw [e, abs_neg]
    exact ht.2.2.2
  · intro k _ hk
    rw [h7, h7] at hk
    have e1 : k % 64 = num % 64 := by omega
    have e2 : k / 64 % 2 = num / 64 % 2 := by omega
    rw [ConvertRawGainCoefToPercents_eq, ConvertRawGainCoefToPercents_eq, e1, e2]
  · rw [ConvertRawGainCoefToPercents_eq]
    split_ifs
    · rw [abs_neg, abs_of_nonneg ht.2.1]; exact ht.2.2.1
    · rw [abs_of_nonneg ht.2.1]; exact ht.2.2.1

/-- C13 (witness): the value `0x007F`, with bit 6 set, converts to the
binary32 value of `(0x7F & 0x3F) * 0.1`, within `2^-22` of `6.3`. -/
theorem ConvertRawGainCoefToPercents_binary32_sign_magnitude_witness :
    0x7F < 65536 ∧
    ConvertRawGainCoefToPercents 0x7F =
      roundBinary32 (roundBinary64 (((0x7F &&& 0x3F : Nat) : ℚ) * roundBinary64 0.1)) ∧
    |ConvertRawGainCoefToPercents 0x7F - ((0x7F &&& 0x3F : Nat) : ℚ) / 10| ≤ 1 / 2 ^ 22 :=
  ⟨by decide,
    (ConvertRawGainCoefToPercents_binary32_sign_magnitude 0x7F (by decide)).1 (by decide)⟩

/-! ## Failure of the socket stream -/

theorem sendLoop_throw (f : Nat → ℚ) (buf : List Nat) (k n i : Nat)
    (hik : i ≤ k) (hkn : k < i + n) : (sendLoop f buf (some k) n i).2 = true := by
  induction n generalizing i with
  | zero => omega
  | succ n ih =>
    by_cases h : k = i
    · subst h; simp [sendLoop]
    · have hne : ¬ (some k = some i) := fun e => h (Option.some.inj e)
      simp only [sendLoop, if_neg hne]
      exact ih (i + 1) (by omega) (by omega)

theorem sendData_failure (f : Nat → ℚ) (env : TickEnv) (buf : List Nat)
    (hx : env.socketOpenThrows = true ∨
      ∃ k, k < SAMPLE_COUNT ∧ env.socketWriteThrowsAt = some k) :
    ∃ t, sendData f env buf = t ++ [.cerr .socketError] := by
  unfold sendData
  by_cases ho : env.socketOpenThrows = true
  · rw [if_pos ho]
    exact ⟨[.socketOpen false], rfl⟩
  · rw [if_neg ho]
    rcases hx with hx | ⟨k, hk, hw⟩
    · exact absurd hx ho
    · have h2 := sendLoop_throw f buf k SAMPLE_COUNT 0 (Nat.zero_le k) (by omega)
      rw [hw]
      simp only [h2, if_true]
      exact ⟨[.socketOpen true, .cout .sendingData] ++
        (sendLoop f buf (some k) SAMPLE_COUNT 0).1 ++ [.socketClose], by simp⟩

theorem handleBTN0_capture_ok (m : AveragingMode) (env : TickEnv) (g : Globals)
    (f : Nat → ℚ) (n : Nat)
    (hs : env.simpleTransferStatus = XST_SUCCESS) (hp : env.busyPolls = some n)
    (hf : g.Xadc_RawToVoltageFunc.target m = some f) :
    handleBTN0 m env g =
      ([.Xil_DCacheFlushRange, .XAxiDma_SimpleTransfer (SAMPLE_COUNT * 2),
        .XGpioPs_WritePin 54 1, .XGpioPs_WritePin 54 0] ++ busyWait n ++
        [.Xil_DCacheInvalidateRange] ++ [.cout .dataHeader] ++
        printLoop f (dmaStore env g.DataBuffer) 8 0 ++
        sendData f env (dmaStore env g.DataBuffer),
        .next { g with DataBuffer := dmaStore env g.DataBuffer }) := by
  simp [handleBTN0, ReceiveData, hs, hp, hf, XST_FAILURE, XST_SUCCESS]

theorem handleBTN0_trace_starts_capture (m : AveragingMode) (env : TickEnv) (g : Globals) :
    ∃ rest, (handleBTN0 m env g).1 =
      .Xil_DCacheFlushRange :: .XAxiDma_SimpleTransfer (SAMPLE_COUNT * 2) :: rest := by
  unfold handleBTN0 ReceiveData
  by_cases hs : env.simpleTransferStatus ≠ XST_SUCCESS
  · simp [hs, XST_FAILURE]
  · cases hp : env.busyPolls with
    | none => simp [hs, hp]
    | some n =>
      cases hf : g.Xadc_RawToVoltageFunc.target m with
      | none => simp [hs, hp, hf, XST_FAILURE]
      | some f => simp [hs, hp, hf, XST_FAILURE]

theorem tick_trace_BTN0 (m : AveragingMode) (env : TickEnv) (g : Globals)
    (hb : env.BTN0 = true) :
    ∃ rest, (XADC_tick m env g).1 = .XGpioPs_Read :: (handleBTN0 m env g).1 ++ rest := by
  unfold XADC_tick
  simp only [hb, if_true]
  rcases handleBTN0 m env g with ⟨t0, o⟩
  cases o with
  | next g1 =>
    simp only
    rcases (if env.BTN1 = true then handleBTN1 env g1 else ([], Outcome.next g1)) with ⟨t1, o1⟩
    cases o1 <;> simp
  | deleted g1 => exact ⟨[], by simp⟩
  | blocked => exact ⟨[], by simp⟩
  | undefined => exact ⟨[], by simp⟩


/-- C11 (counterexample): in a pass where button 0 is pressed, the capture
succeeds and the opening of the socket throws, with button 1 pressed as well,
the pass ends with the input toggled to `VPVN` and its decoder bound, so the
selector is not the one before the pass; when in addition
`XSysMon_SetSingleChParams` fails, the pass ends the task. -/
theorem stream_failure_with_BTN1_changes_selector :
    openFailsBothPressedEnv.BTN0 = true ∧
    openFailsBothPressedEnv.simpleTransferStatus = XST_SUCCESS ∧
    openFailsBothPressedEnv.busyPolls = some 0 ∧
    openFailsBothPressedEnv.socketOpenThrows = true ∧
    (XADC_tick .XSM_AVG_64_SAMPLES openFailsBothPressedEnv startGlobals).2 =
      .next { startGlobals with ActiveXADCInput := .VPVN, Xadc_RawToVoltageFunc := .VPVN } ∧
    selector { startGlobals with ActiveXADCInput := .VPVN, Xadc_RawToVoltageFunc := .VPVN } ≠
      selector startGlobals ∧
    (XADC_tick .XSM_AVG_64_SAMPLES openFailsSwitchFailsEnv startGlobals).2 =
      .deleted { startGlobals with ActiveXADCInput := .VPVN } := by
  refine ⟨rfl, rfl, rfl, rfl, ?_, by decide, ?_⟩
  · rfl
  · rfl

/-- C11 (amended): when button 0 is pressed, the capture succeeds and the
opening of the socket or a write on it throws, the handling of button 0 logs the
error and ends normally with the active input and the bound decoder unchanged;
when button 1 is not pressed in the same pass, the pass reaches its final
`vTaskDelay` with the same selector, the loop goes on with the next pass, and
any later pass with button 0 pressed starts with the cache flush and the
`XAxiDma_SimpleTransfer` call of a new capture. -/
theorem stream_failure_is_absorbed (m : AveragingMode) (env : TickEnv) (g : Globals)
    (f : Nat → ℚ) (n : Nat)
    (hb0 : env.BTN0 = true)
    (hs : env.simpleTransferStatus = XST_SUCCESS) (hp : env.busyPolls = some n)
    (hx : env.socketOpenThrows = true ∨
      ∃ k, k < SAMPLE_COUNT ∧ env.socketWriteThrowsAt = some k)
    (hf : g.Xadc_RawToVoltageFunc.target m = some f) :
    (∃ t0 g1, handleBTN0 m env g = (t0 ++ [.cerr .socketError], .next g1) ∧
      selector g1 = selector g) ∧
    (env.BTN1 = false →
      ∃ t g', XADC_tick m env g = (t ++ [.cerr .socketError, .vTaskDelay], .next g') ∧
        selector g' = selector g ∧
        (∀ envs : List TickEnv,
          XADC_loop m (env :: envs) g =
            (t ++ [.cerr .socketError, .vTaskDelay] ++ (XADC_loop m envs g').1,
              (XADC_loop m envs g').2)) ∧
        (∀ env2 : TickEnv, env2.BTN0 = true →
          ∃ rest, (XADC_tick m env2 g').1 =
            .XGpioPs_Read :: .Xil_DCacheFlushRange ::
              .XAxiDma_SimpleTransfer (SAMPLE_COUNT * 2) :: rest)) := by
  obtain ⟨ts, hts⟩ := sendData_failure f env (dmaStore env g.DataBuffer) hx
  have h0 := handleBTN0_capture_ok m env g f n hs hp hf
  rw [hts, ← List.append_assoc] at h0
  constructor
  · exact ⟨_, _, h0, rfl⟩
  · intro hb1
    have hT : XADC_tick m env g =
        ((.XGpioPs_Read :: ([.Xil_DCacheFlushRange, .XAxiDma_SimpleTransfer (SAMPLE_COUNT * 2),
          .XGpioPs_WritePin 54 1, .XGpioPs_WritePin 54 0] ++ busyWait n ++
          [.Xil_DCacheInvalidateRange] ++ [.cout .dataHeader] ++
          printLoop f (dmaStore env g.DataBuffer) 8 0 ++ ts)) ++
          [.cerr .socketError, .vTaskDelay],
          .next { g with DataBuffer := dmaStore env g.DataBuffer }) := by
      simp [XADC_tick, hb0, hb1, h0]
    refine ⟨_, _, hT, rfl, ?_, ?_⟩
    · intro envs
      simp only [XADC_loop, hT]
    · intro env2 hb2
      obtain ⟨r1, hr1⟩ := tick_trace_BTN0 m env2
        { g with DataBuffer := dmaStore env g.DataBuffer } hb2
      obtain ⟨r2, hr2⟩ := handleBTN0_trace_starts_capture m env2
        { g with DataBuffer := dmaStore env g.DataBuffer }
      rw [hr1, hr2]
      exact ⟨r2 ++ r1, by simp⟩


/-- C11 (witness): the pass `writeFailsEnv`, in which the third write throws,
from `bipolarGlobals`. -/
theorem stream_failure_is_absorbed_witness :
    writeFailsEnv.BTN0 = true ∧ writeFailsEnv.BTN1 = false ∧
    writeFailsEnv.simpleTransferStatus = XST_SUCCESS ∧ writeFailsEnv.busyPolls = some 1 ∧
    (∃ k, k < SAMPLE_COUNT ∧ writeFailsEnv.socketWriteThrowsAt = some k) ∧
    ∃ t g', XADC_tick .XSM_AVG_64_SAMPLES writeFailsEnv bipolarGlobals =
        (t ++ [.cerr .socketError, .vTaskDelay], .next g') ∧
      selector g' = selector bipolarGlobals := by
  refine ⟨rfl, rfl, rfl, rfl, ⟨2, by decide, rfl⟩, ?_⟩
  obtain ⟨t, g', h1, h2, _, _⟩ :=
    (stream_failure_is_absorbed .XSM_AVG_64_SAMPLES writeFailsEnv bipolarGlobals
      (Xadc_RawToVoltageVPVN .XSM_AVG_64_SAMPLES) 1 rfl rfl rfl
      (Or.inr ⟨2, by decide, rfl⟩) rfl).2 rfl
  exact ⟨t, g', h1, h2⟩

/-! ## Both buttons in one pass -/

theorem mem_busyWait (e : Effect) (n : Nat) (h : e ∈ busyWait n) :
    (∃ b, e = .XAxiDma_Busy b) ∨ e = .vTaskDelay := by
  induction n with
  | zero =>
    simp only [busyWait, List.mem_singleton] at h
    exact Or.inl ⟨false, h⟩
  | succ n ih =>
    simp only [busyWait, List.mem_cons] at h
    rcases h with h | h | h
    · exact Or.inl ⟨true, h⟩
    · exact Or.inr h
    · exact ih h

theorem mem_printLoop (f : Nat → ℚ) (buf : List Nat) (e : Effect) (n i : Nat)
    (h : e ∈ printLoop f buf n i) :
    (∃ j, e = .readDataBuffer j) ∨ ∃ v, e = .coutVoltage v := by
  induction n generalizing i with
  | zero => simp [printLoop] at h
  | succ n ih =>
    simp only [printLoop, List.mem_cons] at h
    rcases h with h | h | h
    · exact Or.inl ⟨i, h⟩
    · exact Or.inr ⟨_, h⟩
    · exact ih (i + 1) h

theorem mem_sendLoop (f : Nat → ℚ) (buf : List Nat) (w : Option Nat) (e : Effect) (n i : Nat)
    (h : e ∈ (sendLoop f buf w n i).1) :
    (∃ j, e = .readDataBuffer j) ∨ ∃ v, e = .socketWrite v := by
  induction n generalizing i with
  | zero => simp [sendLoop] at h
  | succ n ih =>
    unfold sendLoop at h
    split_ifs at h with hw
    · simp only [List.mem_singleton] at h
      exact Or.inl ⟨i, h⟩
    · simp only [List.mem_cons] at h
      rcases h with h | h | h
      · exact Or.inl ⟨i, h⟩
      · exact Or.inr ⟨_, h⟩
      · exact ih (i + 1) h

theorem setSingleCh_not_mem_sendData (f : Nat → ℚ) (env : TickEnv) (buf : List Nat)
    (i : eXADCInput) (d : Bool) : Effect.XSysMon_SetSingleChParams i d ∉ sendData f env buf := by
  intro h
  unfold sendData at h
  by_cases ho : env.socketOpenThrows = true
  · rw [if_pos ho] at h
    simp at h
  · rw [if_neg ho] at h
    dsimp only at h
    by_cases hr : (sendLoop f buf env.socketWriteThrowsAt SAMPLE_COUNT 0).2 = true
    · rw [if_pos hr] at h
      simp only [List.mem_append, List.mem_cons, List.mem_singleton, List.not_mem_nil,
        or_false] at h
      rcases h with (h | h) | h
      · rcases h with h | h <;> cases h
      · rcases mem_sendLoop _ _ _ _ _ _ h with ⟨_, e⟩ | ⟨_, e⟩ <;> cases e
      · rcases h with h | h <;> cases h
    · rw [if_neg hr] at h
      simp only [List.mem_append, List.mem_cons, List.mem_singleton, List.not_mem_nil,
        or_false] at h
      rcases h with (h | h) | h
      · rcases h with h | h <;> cases h
      · rcases mem_sendLoop _ _ _ _ _ _ h with ⟨_, e⟩ | ⟨_, e⟩ <;> cases e
      · rcases h with h | h <;> cases h

theorem handleBTN0_next_selector (m : AveragingMode) (env : TickEnv) (g g1 : Globals)
    (t : List Effect) (h : handleBTN0 m env g = (t, .next g1)) : selector g1 = selector g := by
  unfold handleBTN0 ReceiveData at h
  by_cases hs : env.simpleTransferStatus ≠ XST_SUCCESS
  · simp [hs, XST_FAILURE] at h
  · cases hp : env.busyPolls with
    | none => simp [hs, hp] at h
    | some n =>
      cases hf : g.Xadc_RawToVoltageFunc.target m with
      | none => simp [hs, hp, hf, XST_FAILURE] at h
      | some f =>
        simp [hs, hp, hf, XST_FAILURE] at h
        rw [← h.2]
        rfl

theorem handleBTN1_next_bound (env : TickEnv) (g g2 : Globals) (t : List Effect)
    (h : handleBTN1 env g = (t, .next g2)) :
    g2.Xadc_RawToVoltageFunc = (if g2.ActiveXADCInput = .VAUX1 then .AUX1 else .VPVN) := by
  unfold handleBTN1 ActivateXADCInput at h
  by_cases hc : env.setSingleChStatus ≠ XST_SUCCESS
  · cases hg : g.ActiveXADCInput <;> simp [hg, hc, XST_FAILURE] at h
  · have hc1 : env.setSingleChStatus = XST_SUCCESS := not_not.mp hc
    cases hg : g.ActiveXADCInput <;> simp [hg, hc1, XST_FAILURE, XST_SUCCESS] at h <;>
      rw [← h.2] <;> rfl

theorem tick_keeps_decoder_bound (m : AveragingMode) (env : TickEnv) (g g' : Globals)
    (t : List Effect)
    (hsel : g.Xadc_RawToVoltageFunc = (if g.ActiveXADCInput = .VAUX1 then .AUX1 else .VPVN))
    (h : XADC_tick m env g = (t, .next g')) :
    g'.Xadc_RawToVoltageFunc = (if g'.ActiveXADCInput = .VAUX1 then .AUX1 else .VPVN) := by
  have key : ∀ (t0 : List Effect) (g1 : Globals),
      g1.Xadc_RawToVoltageFunc = (if g1.ActiveXADCInput = .VAUX1 then .AUX1 else .VPVN) →
      (match (if env.BTN1 = true then handleBTN1 env g1 else ([], Outcome.next g1)) with
        | (t1, .next g2) => (Effect.XGpioPs_Read :: t0 ++ t1 ++ [Effect.vTaskDelay], Outcome.next g2)
        | (t1, o) => (Effect.XGpioPs_Read :: t0 ++ t1, o)) = (t, Outcome.next g') →
      g'.Xadc_RawToVoltageFunc = (if g'.ActiveXADCInput = .VAUX1 then .AUX1 else .VPVN) := by
    intro t0 g1 h1 hm
    by_cases hb1 : env.BTN1 = true
    · rw [if_pos hb1] at hm
      rcases hB : handleBTN1 env g1 with ⟨t1, o⟩
      rw [hB] at hm
      cases o with
      | next g2 =>
        simp only [Prod.mk.injEq, Outcome.next.injEq] at hm
        rw [← hm.2]
        exact handleBTN1_next_bound env g1 g2 t1 hB
      | deleted g2 => simp at hm
      | blocked => simp at hm
      | undefined => simp at hm
    · rw [if_neg hb1] at hm
      simp only [Prod.mk.injEq, Outcome.next.injEq] at hm
      rw [← hm.2]
      exact h1
  unfold XADC_tick at h
  by_cases hb0 : env.BTN0 = true
  · simp only [hb0, if_true] at h
    rcases hA : handleBTN0 m env g with ⟨t0, o⟩
    rw [hA] at h
    cases o with
    | next g1 =>
      have hs1 := handleBTN0_next_selector m env g g1 t0 hA
      simp only [selector, Prod.mk.injEq] at hs1
      apply key t0 g1 _ h
      rw [hs1.1, hs1.2]
      exact hsel
    | deleted g1 => simp at h
    | blocked => simp at h
    | undefined => simp at h
  · simp only [hb0] at h
    exact key [] g hsel h

theorem setSingleCh_not_mem_busyWait (n : Nat) (i : eXADCInput) (d : Bool) :
    Effect.XSysMon_SetSingleChParams i d ∉ busyWait n := by
  intro h
  rcases mem_busyWait _ n h with ⟨_, e⟩ | e <;> cases e

theorem setSingleCh_not_mem_printLoop (f : Nat → ℚ) (buf : List Nat) (n j : Nat)
    (i : eXADCInput) (d : Bool) :
    Effect.XSysMon_SetSingleChParams i d ∉ printLoop f buf n j := by
  intro h
  rcases mem_printLoop _ _ _ _ _ h with ⟨_, e⟩ | ⟨_, e⟩ <;> cases e

theorem setSingleCh_not_mem_handleBTN0 (m : AveragingMode) (env : TickEnv) (g : Globals)
    (i : eXADCInput) (d : Bool) :
    Effect.XSysMon_SetSingleChParams i d ∉ (handleBTN0 m env g).1 := by
  unfold handleBTN0 ReceiveData
  by_cases hs : env.simpleTransferStatus ≠ XST_SUCCESS
  · simp [hs, XST_FAILURE]
  · cases hp : env.busyPolls with
    | none => simp [hs, hp]
    | some n =>
      cases hf : g.Xadc_RawToVoltageFunc.target m with
      | none => simp [hs, hp, hf, XST_FAILURE, setSingleCh_not_mem_busyWait]
      | some f =>
        simp [hs, hp, hf, XST_FAILURE, setSingleCh_not_mem_busyWait,
          setSingleCh_not_mem_printLoop, setSingleCh_not_mem_sendData]

theorem printLoop_dmaStore (f : Nat → ℚ) (env : TickEnv) (old : List Nat) (n i : Nat)
    (h : i + n ≤ SAMPLE_COUNT) :
    printLoop f (dmaStore env old) n i =
      (List.range' i n).flatMap fun j =>
        [.readDataBuffer j, .coutVoltage (f (env.dmaSample j % 65536))] := by
  induction n generalizing i with
  | zero => rfl
  | succ n ih =>
    rw [printLoop, ih (i + 1) (by omega), dmaStore_getD env old i (by omega)]
    simp [List.range']

theorem sendLoop_dmaStore (f : Nat → ℚ) (env : TickEnv) (old : List Nat) (n i : Nat)
    (h : i + n ≤ SAMPLE_COUNT) :
    sendLoop f (dmaStore env old) none n i =
      ((List.range' i n).flatMap fun j =>
        [.readDataBuffer j, .socketWrite (f (env.dmaSample j % 65536))], false) := by
  induction n generalizing i with
  | zero => rfl
  | succ n ih =>
    rw [sendLoop, ih (i + 1) (by omega), dmaStore_getD env old i (by omega)]
    simp [List.range']

theorem sendData_dmaStore (f : Nat → ℚ) (env : TickEnv) (old : List Nat)
    (ho : env.socketOpenThrows = false) (hw : env.socketWriteThrowsAt = none) :
    sendData f env (dmaStore env old) =
      [.socketOpen true, .cout .sendingData] ++
        ((List.range SAMPLE_COUNT).flatMap fun j =>
          [.readDataBuffer j, .socketWrite (f (env.dmaSample j % 65536))]) ++
        [.cout .sent, .socketClose] := by
  unfold sendData
  rw [ho, hw, sendLoop_dmaStore f env old SAMPLE_COUNT 0 (by omega), List.range_eq_range']
  simp

theorem handleBTN1_switch_ok (env : TickEnv) (g : Globals)
    (hc : env.setSingleChStatus = XST_SUCCESS) :
    handleBTN1 env g =
      ((if g.ActiveXADCInput = .VAUX1 then
          [.XSysMon_SetSingleChParams .VPVN true, .cout .VPVNActivated]
        else [.XSysMon_SetSingleChParams .VAUX1 false, .cout .VAUX1Activated]),
        .next
          { DataBuffer := g.DataBuffer
            ActiveXADCInput := if g.ActiveXADCInput = .VAUX1 then .VPVN else .VAUX1
            Xadc_RawToVoltageFunc := if g.ActiveXADCInput = .VAUX1 then .VPVN else .AUX1 }) := by
  cases hg : g.ActiveXADCInput <;>
    simp [handleBTN1, ActivateXADCInput, hg, hc, XST_FAILURE, XST_SUCCESS]

theorem both_buttons_success_tick (m : AveragingMode) (env : TickEnv) (g : Globals)
    (f : Nat → ℚ) (n : Nat)
    (hb0 : env.BTN0 = true) (hb1 : env.BTN1 = true)
    (hs : env.simpleTransferStatus = XST_SUCCESS) (hp : env.busyPolls = some n)
    (hc : env.setSingleChStatus = XST_SUCCESS)
    (hf : g.Xadc_RawToVoltageFunc.target m = some f) :
    XADC_tick m env g =
      (.XGpioPs_Read ::
        ([.Xil_DCacheFlushRange, .XAxiDma_SimpleTransfer (SAMPLE_COUNT * 2),
          .XGpioPs_WritePin 54 1, .XGpioPs_WritePin 54 0] ++ busyWait n ++
          [.Xil_DCacheInvalidateRange, .cout .dataHeader] ++
          ((List.range 8).flatMap fun j =>
            [.readDataBuffer j, .coutVoltage (f (env.dmaSample j % 65536))]) ++
          sendData f env (dmaStore env g.DataBuffer)) ++
        (if g.ActiveXADCInput = .VAUX1 then
          [.XSysMon_SetSingleChParams .VPVN true, .cout .VPVNActivated]
        else [.XSysMon_SetSingleChParams .VAUX1 false, .cout .VAUX1Activated]) ++
        [.vTaskDelay],
        .next
          { DataBuffer := dmaStore env g.DataBuffer
            ActiveXADCInput := if g.ActiveXADCInput = .VAUX1 then .VPVN else .VAUX1
            Xadc_RawToVoltageFunc := if g.ActiveXADCInput = .VAUX1 then .VPVN else .AUX1 }) := by
  have h0 := handleBTN0_capture_ok m env g f n hs hp hf
  have h1 := handleBTN1_switch_ok env { g with DataBuffer := dmaStore env g.DataBuffer } hc
  have hpr := printLoop_dmaStore f env g.DataBuffer 8 0 (by unfold SAMPLE_COUNT; omega)
  rw [← List.range_eq_range'] at hpr
  rw [hpr] at h0
  simp [XADC_tick, hb0, hb1, h0, h1]

theorem socketWrites_sendFlat (f : Nat → ℚ) (s : Nat → Nat) (n i : Nat) :
    socketWrites ((List.range' i n).flatMap fun j =>
      [.readDataBuffer j, .socketWrite (f (s j))]) = (List.range' i n).map fun j => f (s j) := by
  induction n generalizing i with
  | zero => rfl
  | succ n ih =>
    have h1 := ih (i + 1)
    simp [List.range', socketWrites] at h1 ⊢
    exact h1

theorem socketWrites_printFlat (f : Nat → ℚ) (s : Nat → Nat) (n i : Nat) :
    socketWrites ((List.range' i n).flatMap fun j =>
      [.readDataBuffer j, .coutVoltage (f (s j))]) = [] := by
  induction n generalizing i with
  | zero => rfl
  | succ n ih =>
    have h1 := ih (i + 1)
    simp [List.range', socketWrites] at h1 ⊢
    exact h1

theorem both_buttons_success_socketWrites (m : AveragingMode) (env : TickEnv) (g : Globals)
    (f : Nat → ℚ) (n : Nat)
    (hb0 : env.BTN0 = true) (hb1 : env.BTN1 = true)
    (hs : env.simpleTransferStatus = XST_SUCCESS) (hp : env.busyPolls = some n)
    (hc : env.setSingleChStatus = XST_SUCCESS)
    (hf : g.Xadc_RawToVoltageFunc.target m = some f)
    (ho : env.socketOpenThrows = false) (hw : env.socketWriteThrowsAt = none) :
    socketWrites (XADC_tick m env g).1 =
      (List.range SAMPLE_COUNT).map fun i => f (env.dmaSample i % 65536) := by
  have hsw : socketWrites
      (if g.ActiveXADCInput = .VAUX1 then
        [Effect.XSysMon_SetSingleChParams .VPVN true, .cout .VPVNActivated]
      else [Effect.XSysMon_SetSingleChParams .VAUX1 false, .cout .VAUX1Activated]) = [] := by
    split_ifs <;> rfl
  have hread : ∀ l : List Effect, socketWrites (.XGpioPs_Read :: l) = socketWrites l :=
    fun _ => rfl
  rw [both_buttons_success_tick m env g f n hb0 hb1 hs hp hc hf,
    sendData_dmaStore f env g.DataBuffer ho hw]
  simp only [socketWrites_append, hread, socketWrites_busyWait, hsw, List.range_eq_range',
    socketWrites_sendFlat, socketWrites_printFlat]
  simp [socketWrites]

/-- C14: in every pass where both buttons are reported pressed, button 0 is
handled before button 1: the trace of the pass is the read of the buttons
followed by the whole trace of the handling of button 0, which holds no
`XSysMon_SetSingleChParams` call, and the selector is unchanged when that
handling ends normally. When moreover the capture and the channel switch
succeed, from a state where the bound decoder `f` is that of the active input,
the pass is, in this order: the read of the buttons; the cache flush, the
transfer of `SAMPLE_COUNT` samples, the trigger pulse, the wait for the engine
and the cache invalidation; the header and the first eight samples stored in
this pass, decoded by `f`; the sending of the buffer stored in this pass,
decoded by `f`; the `XSysMon_SetSingleChParams` call for the other input and
its message; the final `vTaskDelay`. The buffer holds the samples stored in
this pass, without a socket failure the values sent are `f` of those samples,
and after the pass the active input is the other input with its own decoder
bound, so both differ from the input and decoder that produced the series. -/
theorem both_buttons_capture_then_switch (m : AveragingMode) (env : TickEnv) (g : Globals)
    (hb0 : env.BTN0 = true) (hb1 : env.BTN1 = true) :
    (∃ rest, (XADC_tick m env g).1 = .XGpioPs_Read :: (handleBTN0 m env g).1 ++ rest) ∧
    (∀ i d, Effect.XSysMon_SetSingleChParams i d ∉ (handleBTN0 m env g).1) ∧
    (∀ t0 g1, handleBTN0 m env g = (t0, .next g1) → selector g1 = selector g) ∧
    (∀ (f : Nat → ℚ) (n : Nat),
      env.simpleTransferStatus = XST_SUCCESS → env.busyPolls = some n →
      env.setSingleChStatus = XST_SUCCESS →
      g.Xadc_RawToVoltageFunc = (if g.ActiveXADCInput = .VAUX1 then .AUX1 else .VPVN) →
      g.Xadc_RawToVoltageFunc.target m = some f →
        XADC_tick m env g =
          (.XGpioPs_Read ::
            ([.Xil_DCacheFlushRange, .XAxiDma_SimpleTransfer (SAMPLE_COUNT * 2),
              .XGpioPs_WritePin 54 1, .XGpioPs_WritePin 54 0] ++ busyWait n ++
              [.Xil_DCacheInvalidateRange, .cout .dataHeader] ++
              ((List.range 8).flatMap fun j =>
                [.readDataBuffer j, .coutVoltage (f (env.dmaSample j % 65536))]) ++
              sendData f env (dmaStore env g.DataBuffer)) ++
            (if g.ActiveXADCInput = .VAUX1 then
              [.XSysMon_SetSingleChParams .VPVN true, .cout .VPVNActivated]
            else [.XSysMon_SetSingleChParams .VAUX1 false, .cout .VAUX1Activated]) ++
            [.vTaskDelay],
            .next
              { DataBuffer := dmaStore env g.DataBuffer
                ActiveXADCInput := if g.ActiveXADCInput = .VAUX1 then .VPVN else .VAUX1
                Xadc_RawToVoltageFunc :=
                  if g.ActiveXADCInput = .VAUX1 then .VPVN else .AUX1 }) ∧
        (∀ i, i < SAMPLE_COUNT →
          (dmaStore env g.DataBuffer).getD i 0 = env.dmaSample i % 65536) ∧
        (env.socketOpenThrows = false → env.socketWriteThrowsAt = none →
          sendData f env (dmaStore env g.DataBuffer) =
            [.socketOpen true, .cout .sendingData] ++
              ((List.range SAMPLE_COUNT).flatMap fun j =>
                [.readDataBuffer j, .socketWrite (f (env.dmaSample j % 65536))]) ++
              [.cout .sent, .socketClose] ∧
          socketWrites (XADC_tick m env g).1 =
            (List.range SAMPLE_COUNT).map fun i => f (env.dmaSample i % 65536)) ∧
        (if g.ActiveXADCInput = .VAUX1 then FuncPtr.AUX1 else FuncPtr.VPVN).target m = some f ∧
        (if g.ActiveXADCInput = .VAUX1 then eXADCInput.VPVN else eXADCInput.VAUX1) ≠
          g.ActiveXADCInput ∧
        (if g.ActiveXADCInput = .VAUX1 then FuncPtr.VPVN else FuncPtr.AUX1) ≠
          g.Xadc_RawToVoltageFunc) :=
  ⟨tick_trace_BTN0 m env g hb0,
    fun i d => setSingleCh_not_mem_handleBTN0 m env g i d,
    fun t0 g1 h => handleBTN0_next_selector m env g g1 t0 h,
    fun f n hs hp hc hsel hf =>
      ⟨both_buttons_success_tick m env g f n hb0 hb1 hs hp hc hf,
        fun i hi => dmaStore_getD env g.DataBuffer i hi,
        fun ho hw => ⟨sendData_dmaStore f env g.DataBuffer ho hw,
          both_buttons_success_socketWrites m env g f n hb0 hb1 hs hp hc hf ho hw⟩,
        by rw [← hsel]; exact hf,
        by cases g.ActiveXADCInput <;> simp,
        by rw [hsel]; cases g.ActiveXADCInput <;> simp⟩⟩

/-- C14 (witness): the pass `bothPressedEnv` from `bipolarGlobals`, where the
engine answers busy once: the capture of 100 samples `0x8000` is decoded by the
bipolar decoder, the switch to `VAUX1` follows, and the pass ends with `VAUX1`
active and its decoder bound. -/
theorem both_buttons_capture_then_switch_witness :
    bothPressedEnv.BTN0 = true ∧ bothPressedEnv.BTN1 = true ∧
    bothPressedEnv.simpleTransferStatus = XST_SUCCESS ∧ bothPressedEnv.busyPolls = some 1 ∧
    bothPressedEnv.setSingleChStatus = XST_SUCCESS ∧
    bipolarGlobals.Xadc_RawToVoltageFunc =
      (if bipolarGlobals.ActiveXADCInput = .VAUX1 then .AUX1 else .VPVN) ∧
    bipolarGlobals.Xadc_RawToVoltageFunc.target .XSM_AVG_64_SAMPLES =
      some (Xadc_RawToVoltageVPVN .XSM_AVG_64_SAMPLES) ∧
    XADC_tick .XSM_AVG_64_SAMPLES bothPressedEnv bipolarGlobals =
      (.XGpioPs_Read ::
        ([.Xil_DCacheFlushRange, .XAxiDma_SimpleTransfer (SAMPLE_COUNT * 2),
          .XGpioPs_WritePin 54 1, .XGpioPs_WritePin 54 0] ++ busyWait 1 ++
          [.Xil_DCacheInvalidateRange, .cout .dataHeader] ++
          ((List.range 8).flatMap fun j =>
            [.readDataBuffer j,
              .coutVoltage (Xadc_RawToVoltageVPVN .XSM_AVG_64_SAMPLES
                (bothPressedEnv.dmaSample j % 65536))]) ++
          sendData (Xadc_RawToVoltageVPVN .XSM_AVG_64_SAMPLES) bothPressedEnv
            (dmaStore bothPressedEnv bipolarGlobals.DataBuffer)) ++
        (if bipolarGlobals.ActiveXADCInput = .VAUX1 then
          [.XSysMon_SetSingleChParams .VPVN true, .cout .VPVNActivated]
        else [.XSysMon_SetSingleChParams .VAUX1 false, .cout .VAUX1Activated]) ++
        [.vTaskDelay],
        .next
          { DataBuffer := dmaStore bothPressedEnv bipolarGlobals.DataBuffer
            ActiveXADCInput :=
              if bipolarGlobals.ActiveXADCInput = .VAUX1 then .VPVN else .VAUX1
            Xadc_RawToVoltageFunc :=
              if bipolarGlobals.ActiveXADCInput = .VAUX1 then .VPVN else .AUX1 }) ∧
    socketWrites (XADC_tick .XSM_AVG_64_SAMPLES bothPressedEnv bipolarGlobals).1 =
      (List.range SAMPLE_COUNT).map fun i =>
        Xadc_RawToVoltageVPVN .XSM_AVG_64_SAMPLES (bothPressedEnv.dmaSample i % 65536) :=
  ⟨rfl, rfl, rfl, rfl, rfl, rfl, rfl,
    ((both_buttons_capture_then_switch .XSM_AVG_64_SAMPLES bothPressedEnv bipolarGlobals
      rfl rfl).2.2.2 (Xadc_RawToVoltageVPVN .XSM_AVG_64_SAMPLES) 1 rfl rfl rfl rfl rfl).1,
    (((both_buttons_capture_then_switch .XSM_AVG_64_SAMPLES bothPressedEnv bipolarGlobals
      rfl rfl).2.2.2 (Xadc_RawToVoltageVPVN .XSM_AVG_64_SAMPLES) 1 rfl rfl rfl rfl
      rfl).2.2.1 rfl rfl).2⟩

end XADC
